import Mathlib

/-!
Verification of the coda-copper Pack (a Coda Pack exposing the Copper CRM).

The development shallowly embeds the TypeScript sources. JavaScript records
(open property bags that the enrichment functions mutate in place) are
modelled as insertion-ordered association lists of `String × JsVal`;
JavaScript runtime errors (TypeError and the like) and the user-visible
errors thrown with coda.UserVisibleError are modelled with `Except String` /
`Option String` carrying the message. Reference datasets (users, pipelines,
loss reasons, custom field definitions) keep the typed shape that the
TypeScript declarations in types.ts / schemas.ts give them.

The repository contains several revisions of the same module. Where a
claim points at a particular revision, the embedding carries one definition
per revision: the current helpers revision (the one imported by formulas.ts,
with custom-field handling and schema pruning) is embedded under the plain
source names, and the two older helpers revisions are embedded with a `V1`
and `V2` suffix.
-/

namespace CodaCopper

/-- JavaScript runtime value: undefined, null, booleans, numbers (the ids and
page numbers manipulated by this code are integral, so numbers are modelled
as `Int`), strings, objects (insertion-ordered key/value lists) and arrays. -/
inductive JsVal : Type where
  | undef : JsVal
  | jsNull : JsVal
  | bool (b : Bool) : JsVal
  | num (n : Int) : JsVal
  | str (s : String) : JsVal
  | obj (fields : List (String × JsVal)) : JsVal
  | arr (elems : List JsVal) : JsVal

/-- A JavaScript object, as manipulated by the enrichment code: an
insertion-ordered list of properties. Real JS objects never repeat a key;
theorems that need this carry a `Nodup` hypothesis on the key list. -/
abbrev Obj := List (String × JsVal)

/-- Property read `o[k]`: the value at the first matching key, or undefined. -/
def objGet (o : Obj) (k : String) : JsVal :=
  match o.find? (fun kv => kv.1 = k) with
  | some kv => kv.2
  | none => JsVal.undef

/-- Property write `o[k] = v`: updates the value in place when the key is
already present (keeping its position), otherwise appends the new property. -/
def objSet (o : Obj) (k : String) (v : JsVal) : Obj :=
  if (o.map Prod.fst).contains k then
    o.map (fun kv => if kv.1 = k then (k, v) else kv)
  else o ++ [(k, v)]

/-- Object.assign(target, source): copy every property of the source onto the
target, in source insertion order. -/
def objAssign (target source : Obj) : Obj :=
  source.foldl (fun t kv => objSet t kv.1 kv.2) target

/-- Object.keys. -/
def objKeys (o : Obj) : List String := o.map Prod.fst

/-- JavaScript truthiness: undefined, null, false, 0 and the empty string are
falsy; every other value (including empty objects and arrays) is truthy. -/
def jsTruthy : JsVal → Bool
  | JsVal.undef => false
  | JsVal.jsNull => false
  | JsVal.bool b => b
  | JsVal.num n => n ≠ 0
  | JsVal.str s => s ≠ ""
  | JsVal.obj _ => true
  | JsVal.arr _ => true

/-- Optional-chaining property read `v?.k`: undefined on null/undefined and on
primitives (which carry none of the properties this code reads). -/
def jsGetOpt (v : JsVal) (k : String) : JsVal :=
  match v with
  | JsVal.obj fields => objGet fields k
  | _ => JsVal.undef

/-- Plain property read `v.k` as used behind a truthiness guard: reading a
property of null or undefined is a TypeError, reading an unknown property of
any other primitive yields undefined. -/
def jsGetE (v : JsVal) (k : String) : Except String JsVal :=
  match v with
  | JsVal.obj fields => Except.ok (objGet fields k)
  | JsVal.undef => Except.error "TypeError: cannot read properties of undefined"
  | JsVal.jsNull => Except.error "TypeError: cannot read properties of null"
  | _ => Except.ok JsVal.undef

/-- String coercion of a value, as performed by template literals and the
`+` operator on strings. -/
def jsValToString : JsVal → String
  | JsVal.undef => "undefined"
  | JsVal.jsNull => "null"
  | JsVal.bool b => if b then "true" else "false"
  | JsVal.num n => toString n
  | JsVal.str s => s
  | JsVal.obj _ => "[object Object]"
  | JsVal.arr _ => ""

/-- Loose equality `s == v` between a string from a typed reference dataset
and a raw record field, as used by all the foreign-key lookups. Matching
strings compare by value; a number compares equal to its decimal string (the
CRM sends ids inconsistently as strings or numbers); any other combination is
not equal. -/
def jsEqStr (s : String) (v : JsVal) : Bool :=
  match v with
  | JsVal.str t => s = t
  | JsVal.num n => s = toString n
  | _ => false

/-- Strict equality `s === v` between a typed string and a raw field. -/
def jsStrictEqStr (s : String) (v : JsVal) : Bool :=
  match v with
  | JsVal.str t => s = t
  | _ => false

/-! ## Constants (src/unnamed/part_005, the constants module) -/

def PAGE_SIZE : Nat := 50

def STATUS_OPTIONS : List String := ["Open", "Won", "Lost", "Abandoned"]

/-- One entry of the RECORD_TYPES table: primary name, plural API path
segment, and the token used in Copper web URLs. -/
structure RecordTypeEntry where
  primary : String
  plural : String
  webUrl : String

def RECORD_TYPES : List RecordTypeEntry :=
  [⟨"person", "people", "contact"⟩,
   ⟨"company", "companies", "organization"⟩,
   ⟨"opportunity", "opportunities", "deal"⟩]

/-! ## Typed reference datasets (types.ts / schemas.ts declarations) -/

/-- A Copper user: id, name, email. -/
structure CopperUser where
  id : String
  name : String
  email : String

/-- A basic id/name reference record (customer sources, loss reasons,
contact types). -/
structure IdName where
  id : String
  name : String

/-- A pipeline stage. -/
structure PipelineStage where
  id : String
  name : String
  win_probability : Int

/-- A pipeline with its nested ordered stages. -/
structure Pipeline where
  id : String
  name : String
  stages : List PipelineStage

/-- A custom field definition: id and name (the data type and availability
drive only the dynamically generated schema, which is out of scope here). -/
structure CustomFieldDef where
  id : String
  name : String

/-! ## String helpers (helpers.ts) -/

/-- getCopperUrl: the web URL of an entity detail page. -/
def getCopperUrl (copperAccountId : String) (entityType : String)
    (entityId : String) : String :=
  "https://app.copper.com/companies/" ++ copperAccountId ++ "/app#/" ++
    entityType ++ "/" ++ entityId

/-- JavaScript `s.slice(0, -2)`: every character but the last two. -/
def jsSliceDropTwo (s : String) : String :=
  String.mk (s.data.take (s.data.length - 2))

/-- concatenateAddress: append every truthy component followed by a comma and
a space, in the fixed order street, city, state, country, postal code, then
drop the trailing separator with slice(0, -2). The address value is read with
optional chaining, so a missing or null address contributes nothing. -/
def concatenateAddress (address : JsVal) : String :=
  let s0 : String := ""
  let s1 := if jsTruthy (jsGetOpt address "street") then
    s0 ++ jsValToString (jsGetOpt address "street") ++ ", " else s0
  let s2 := if jsTruthy (jsGetOpt address "city") then
    s1 ++ jsValToString (jsGetOpt address "city") ++ ", " else s1
  let s3 := if jsTruthy (jsGetOpt address "state") then
    s2 ++ jsValToString (jsGetOpt address "state") ++ ", " else s2
  let s4 := if jsTruthy (jsGetOpt address "country") then
    s3 ++ jsValToString (jsGetOpt address "country") ++ ", " else s3
  let s5 := if jsTruthy (jsGetOpt address "postal_code") then
    s4 ++ jsValToString (jsGetOpt address "postal_code") ++ ", " else s4
  jsSliceDropTwo s5

/-- addIndefiniteArticle: prepend "an " when the first letter is a vowel,
otherwise "a ". -/
def addIndefiniteArticle (word : String) : String :=
  let vowels : List Char := ['a', 'e', 'i', 'o', 'u']
  let article := match word.data with
    | c :: _ => if vowels.contains c then "an" else "a"
    | [] => "a"
  article ++ " " ++ word

/-- titleCase: upper-case the first character, lower-case the rest. On the
empty string, `string[0]` is undefined and `.toUpperCase()` is a TypeError. -/
def titleCase (s : String) : Except String String :=
  match s.data with
  | [] => Except.error "TypeError: cannot read properties of undefined"
  | c :: rest => Except.ok (String.mk (c.toUpper :: rest.map Char.toLower))

/-- humanReadableList: one item alone; two items joined by the conjunction;
three or more items comma-separated with the conjunction before the last
(the final slice(-1) is a one-element array that JS coerces to its single
element when concatenated). -/
def humanReadableList (list : List String) (conjunction : String := "or") :
    String :=
  if list.length = 1 then list.headI
  else if list.length = 2 then
    String.intercalate (" " ++ conjunction ++ " ") list
  else
    String.intercalate ", " list.dropLast ++ ", " ++ conjunction ++ " " ++
      (match list.getLast? with | some x => x | none => "")

/-! ## Identifier resolver

The web-URL pattern
`/app.copper.com/companies/[0-9]+/app#/.*(contact|deal|organization)/([0-9]{5,})`
is embedded as an explicit matcher with JavaScript regex semantics: the
match is taken at the leftmost possible start position; the two unescaped
dots match any character; `[0-9]+` is greedy and must be followed by the
literal `/app#/`, so it consumes exactly the maximal digit run; the greedy
`.*` makes the token group match at the last position where a token followed
by a slash and five or more digits occurs; `([0-9]{5,})` captures the
maximal digit run at that spot. Group 1 is the token, group 2 the id. -/

/-- Strip a literal character sequence from the front of the input. -/
def stripPre : List Char → List Char → Option (List Char)
  | [], rest => some rest
  | _ :: _, [] => none
  | p :: ps, c :: cs => if c = p then stripPre ps cs else none

/-- First-some choice, the preference order of regex backtracking. -/
def optOr {α : Type} : Option α → Option α → Option α
  | some a, _ => some a
  | none, b => b

/-- Try one alternative of the token group at the current position: the
token literal, a slash, then at least five digits (captured greedily). -/
def tryTok (tok : String) (v : List Char) : Option (List Char × List Char) :=
  match stripPre (tok.data ++ ['/']) v with
  | none => none
  | some w =>
    let ds := w.takeWhile Char.isDigit
    if 5 ≤ ds.length then some (tok.data, ds) else none

/-- The token group `(contact|deal|organization)/([0-9]{5,})` at the current
position, alternatives in source order. -/
def tokenAt (v : List Char) : Option (List Char × List Char) :=
  optOr (tryTok "contact" v) (optOr (tryTok "deal" v) (tryTok "organization" v))

/-- Greedy `.*` before the token group: prefer the latest position at which
the rest of the pattern matches. -/
def searchLastToken : List Char → Option (List Char × List Char)
  | [] => tokenAt []
  | c :: rest => optOr (searchLastToken rest) (tokenAt (c :: rest))

/-- A whole-pattern match anchored at the current position. -/
def matchRecordUrlAt (s : List Char) : Option (List Char × List Char) :=
  match stripPre "/app".data s with
  | none => none
  | some t1 =>
    match t1 with
    | [] => none
    | _ :: t2 =>
      match stripPre "copper".data t2 with
      | none => none
      | some t3 =>
        match t3 with
        | [] => none
        | _ :: t4 =>
          match stripPre "com/companies/".data t4 with
          | none => none
          | some t5 =>
            let ds := t5.takeWhile Char.isDigit
            let r := t5.dropWhile Char.isDigit
            if ds.isEmpty then none
            else
              match stripPre "/app#/".data r with
              | none => none
              | some u => searchLastToken u

/-- copperRecordUrlRegex.exec: captures of the leftmost match, if any. -/
def execRecordUrl : List Char → Option (List Char × List Char)
  | [] => matchRecordUrlAt []
  | c :: rest => optOr (matchRecordUrlAt (c :: rest)) (execRecordUrl rest)

/-- The bare-id pattern `^[0-9]{5,}$`. -/
def copperIdTest (s : String) : Bool :=
  5 ≤ s.data.length && s.data.all Char.isDigit

/-- Result of parsing a user-supplied identifier: the id string and the
record type, which is null when the input was a bare id. -/
structure RecordId where
  id : String
  type : Option String

/-- getIdFromUrlOrId: a bare 5-plus-digit number is returned as an id of
unknown type; otherwise the URL regex is tried (test and exec agree, since
the regex is not global), the token capture is mapped through RECORD_TYPES
(the lookup cannot miss, since the capture is one of the three webUrl
tokens, but a miss would be a TypeError on reading `.primary`); anything
else is the user-visible invalid-identifier error. -/
def getIdFromUrlOrId (idOrUrl : String) : Except String RecordId :=
  if copperIdTest idOrUrl then Except.ok ⟨idOrUrl, none⟩
  else
    match execRecordUrl idOrUrl.data with
    | some (tokenChars, idChars) =>
      match RECORD_TYPES.find? (fun t => t.webUrl = String.mk tokenChars) with
      | some entry => Except.ok ⟨String.mk idChars, some entry.primary⟩
      | none => Except.error "TypeError: cannot read properties of undefined"
    | none => Except.error "Invalid Copper ID or URL"

/-- checkRecordIdType: throws, with both types article-prefixed, when the
actual type is truthy (non-null, non-empty) and differs from the expected
type; the result is the thrown message, or none when no error is thrown. -/
def checkRecordIdType (recordType : Option String) (expectedType : String) :
    Option String :=
  match recordType with
  | none => none
  | some t =>
    if t ≠ "" ∧ t ≠ expectedType then
      some ("Expected " ++ addIndefiniteArticle expectedType ++ ", but got " ++
        addIndefiniteArticle t)
    else none

/-! ## Custom fields and schema pruning (current helpers revision) -/

/-- Loop body of prepareCustomFieldsOnRecord, accumulating the prepared
fields left to right: look the definition id up by strict equality (a missed
lookup leaves fieldName undefined, which JS coerces to the property key
"undefined"), then store the computed value, falling back to the raw value
when the computed value is falsy. Reading a property of a null or undefined
array entry is a TypeError. -/
def prepareCustomFieldsAux (defs : List CustomFieldDef) (acc : Obj) :
    List JsVal → Except String Obj
  | [] => Except.ok acc
  | entry :: rest =>
    match jsGetE entry "custom_field_definition_id" with
    | Except.error e => Except.error e
    | Except.ok defId =>
      let fieldName := match defs.find? (fun d => jsStrictEqStr d.id defId) with
        | some d => d.name
        | none => "undefined"
      -- the source reads entry.value lazily (only when the computed value is
      -- falsy), but a property read can only throw on a null or undefined
      -- entry, for which the definition-id read above has already thrown, so
      -- reading both eagerly is equivalent
      match jsGetE entry "computed_value", jsGetE entry "value" with
      | Except.ok cv, Except.ok v =>
        prepareCustomFieldsAux defs
          (objSet acc fieldName (if jsTruthy cv then cv else v)) rest
      | Except.error e, _ => Except.error e
      | Except.ok _, Except.error e => Except.error e

/-- prepareCustomFieldsOnRecord. -/
def prepareCustomFieldsOnRecord (defs : List CustomFieldDef)
    (entries : List JsVal) : Except String Obj :=
  prepareCustomFieldsAux defs [] entries

/-- Schema property keys of OpportunitySchema, in declaration order, each
taken as `prop.fromKey || key` exactly as pruneObjectToSchema computes them. -/
def opportunitySchemaKeys : List String :=
  ["name", "primaryContact", "company", "status", "assignee", "pipelineStage",
   "close_date", "monetary_value", "url", "priority", "tags", "customerSource",
   "details", "lossReason", "pipeline", "interaction_count", "win_probability",
   "date_last_contacted", "date_created", "date_modified", "primary_contact_id",
   "assignee_id", "company_id", "company_name", "id"]

/-- Schema property keys of PersonSchema (fromKey when declared, else the
property name). -/
def personSchemaKeys : List String :=
  ["name", "title", "company", "assignee", "url", "tags", "contactType",
   "fullAddress", "details", "primaryEmail", "emails", "phoneNumbers",
   "socials", "websites", "prefix", "first_name", "middle_name", "last_name",
   "suffix", "address.street", "address.city", "address.state",
   "address.postal_code", "address.country", "interaction_count",
   "date_created", "date_modified", "id"]

/-- Schema property keys of CompanySchema. -/
def companySchemaKeys : List String :=
  ["name", "fullAddress", "assignee", "tags", "url", "details",
   "phone_numbers", "email_domain", "interaction_count", "socials",
   "websites", "address.street", "address.city", "address.state",
   "address.postal_code", "address.country", "date_created", "date_modified",
   "contact_type_id", "assignee_id", "id"]

/-- pruneObjectToSchema: keep only the properties whose key is a schema key
or one of the additional (custom-field) keys, rebuilding the object with a
reduce that copies the kept entries in insertion order. -/
def pruneObjectToSchema (record : Obj) (schemaKeys : List String)
    (additionalKeys : List String) : Obj :=
  let keys := schemaKeys ++ additionalKeys
  record.foldl
    (fun result kv => if keys.contains kv.1 then objSet result kv.1 kv.2
      else result) []

/-! ## Record enrichment, current helpers revision (src/unnamed/part_001) -/

/-- The assignee sub-object shared by every enrichment function:
copperUserId is the raw assignee id, email and name come from the matched
user and are undefined when the lookup misses. -/
def mkAssignee (o : Obj) (assignee : Option CopperUser) : JsVal :=
  JsVal.obj
    [("copperUserId", objGet o "assignee_id"),
     ("email", match assignee with
       | some u => JsVal.str u.email
       | none => JsVal.undef),
     ("name", match assignee with
       | some u => JsVal.str u.name
       | none => JsVal.undef)]

/-- The shared custom-field step: when definitions were supplied and the
record has a truthy custom_fields property, prepare the fields (iterating a
non-array truthy value would be a TypeError) and Object.assign them onto the
record. Returns the updated record and the local customFields value, which
keeps the supplied initial value when the branch is not taken. -/
def customFieldsStep (o : Obj)
    (customFieldDefinitions : Option (List CustomFieldDef))
    (init : Option Obj) : Except String (Obj × Option Obj) :=
  match customFieldDefinitions with
  | some defs =>
    if jsTruthy (objGet o "custom_fields") then
      match objGet o "custom_fields" with
      | JsVal.arr entries => do
        let fields ← prepareCustomFieldsOnRecord defs entries
        Except.ok (objAssign o fields, some fields)
      | _ => Except.error "TypeError: value is not iterable"
    else Except.ok (o, init)
  | none => Except.ok (o, init)

/-- Name resolution against an id/name reference dataset with loose
equality, yielding undefined on a miss (the `find(...)?.name` pattern). -/
def lookupIdName (ds : List IdName) (v : JsVal) : JsVal :=
  match ds.find? (fun r => jsEqStr r.id v) with
  | some r => JsVal.str r.name
  | none => JsVal.undef

/-- The withReferences block shared by the current and first-revision
opportunity enrichment: attach company and primaryContact stubs (id/name
keys) when the corresponding foreign keys are truthy. -/
def referenceStubsStep (o : Obj) (withReferences : Bool) : Obj :=
  if withReferences then
    let o1 := if jsTruthy (objGet o "company_id") then
        objSet o "company" (JsVal.obj
          [("id", objGet o "company_id"), ("name", objGet o "company_name")])
      else o
    if jsTruthy (objGet o1 "primary_contact_id") then
      objSet o1 "primaryContact" (JsVal.obj
        [("id", objGet o1 "primary_contact_id"),
         ("fullName", JsVal.str "Not found")])
    else o1
  else o

/-- The pure first half of the current enrichOpportunityResponse: url,
assignee, pipeline and pipeline stage (both via optional chaining), customer
source and loss reason, each set on the record in source order. -/
def enrichOpportunityBase (opportunity : Obj) (copperAccountId : String)
    (users : List CopperUser) (pipelines : List Pipeline)
    (customerSources lossReasons : List IdName) : Obj :=
  let o := objSet opportunity "url"
    (JsVal.str (getCopperUrl copperAccountId "deal"
      (jsValToString (objGet opportunity "id"))))
  let assignee := users.find? (fun user => jsEqStr user.id (objGet o "assignee_id"))
  let o := objSet o "assignee" (mkAssignee o assignee)
  let pipeline := pipelines.find? (fun p => jsEqStr p.id (objGet o "pipeline_id"))
  let o := objSet o "pipeline"
    (match pipeline with
     | some p => JsVal.str p.name
     | none => JsVal.undef)
  let o := objSet o "pipelineStage"
    (match pipeline with
     | some p =>
       match p.stages.find? (fun stage =>
           jsEqStr stage.id (objGet o "pipeline_stage_id")) with
       | some st => JsVal.str st.name
       | none => JsVal.undef
     | none => JsVal.undef)
  let o := objSet o "customerSource"
    (lookupIdName customerSources (objGet o "customer_source_id"))
  objSet o "lossReason" (lookupIdName lossReasons (objGet o "loss_reason_id"))

/-- enrichOpportunityResponse, current revision: the base enrichment steps,
then custom fields, optional sync-table references, then pruning. The local
`customFields` variable is declared without an initializer, so when the
custom-field branch is not taken, `Object.keys(customFields)` at the prune
call is a TypeError. -/
def enrichOpportunityResponse (opportunity : Obj) (copperAccountId : String)
    (users : List CopperUser) (pipelines : List Pipeline)
    (customerSources lossReasons : List IdName)
    (customFieldDefinitions : Option (List CustomFieldDef) := none)
    (withReferences : Bool := false) : Except String Obj :=
  let o := enrichOpportunityBase opportunity copperAccountId users pipelines
    customerSources lossReasons
  match customFieldsStep o customFieldDefinitions none with
  | Except.error e => Except.error e
  | Except.ok step =>
    let o := referenceStubsStep step.1 withReferences
    match step.2 with
    | none =>
      Except.error "TypeError: cannot convert undefined or null to object"
    | some customFields =>
      Except.ok (pruneObjectToSchema o opportunitySchemaKeys
        (objKeys customFields))

/-- The first two property sets of the current enrichPersonResponse:
fullAddress and url, in source order. -/
def enrichPersonPre (person : Obj) (copperAccountId : String) : Obj :=
  let o := objSet person "fullAddress"
    (JsVal.str (concatenateAddress (objGet person "address")))
  objSet o "url"
    (JsVal.str (getCopperUrl copperAccountId "contact"
      (jsValToString (objGet o "id"))))

/-- The primaryEmail choice on an emails array: a work-category email if one
exists and is truthy, else the first email. Property reads on the array
elements assume object elements, as the source callbacks do. -/
def personPrimaryEmailVal (es : List JsVal) : JsVal :=
  let workEmail := match es.find? (fun e =>
      jsStrictEqStr "work" (jsGetOpt e "category")) with
    | some e => jsGetOpt e "email"
    | none => JsVal.undef
  if jsTruthy workEmail then workEmail
  else match es.head? with
    | some e => jsGetOpt e "email"
    | none => JsVal.undef

/-- The primaryEmail step: calling `.find` on a non-array emails property is
a TypeError. -/
def personPrimaryEmail (v : JsVal) : Except String JsVal :=
  match v with
  | JsVal.arr es => Except.ok (personPrimaryEmailVal es)
  | _ => Except.error "TypeError: person.emails.find is not a function"

/-- The property sets of enrichPersonResponse after primaryEmail: the
company reference (when the foreign key is truthy), assignee, and
contactType, in source order. -/
def enrichPersonPost (o : Obj) (users : List CopperUser)
    (contactTypes : List IdName) : Obj :=
  let o := if jsTruthy (objGet o "company_id") then
      objSet o "company" (JsVal.obj
        [("id", objGet o "company_id"), ("name", objGet o "company_name")])
    else o
  -- if (users): the typed users array is always truthy
  let assignee := users.find? (fun user => jsEqStr user.id (objGet o "assignee_id"))
  let o := objSet o "assignee" (mkAssignee o assignee)
  -- if (contactTypes): likewise always truthy
  objSet o "contactType" (lookupIdName contactTypes (objGet o "contact_type_id"))

/-- The first half of the current enrichPersonResponse, in source order:
fullAddress, url, primaryEmail, company reference, assignee, contactType. -/
def enrichPersonBase (person : Obj) (copperAccountId : String)
    (users : List CopperUser) (contactTypes : List IdName) :
    Except String Obj := do
  let o := enrichPersonPre person copperAccountId
  let primaryEmail ← personPrimaryEmail (objGet o "emails")
  Except.ok (enrichPersonPost (objSet o "primaryEmail" primaryEmail) users
    contactTypes)

/-- enrichPersonResponse, current revision: the base steps, then custom
fields (`customFields` is initialized to an empty object here, so the prune
step never fails), then pruning. -/
def enrichPersonResponse (person : Obj) (copperAccountId : String)
    (users : List CopperUser) (contactTypes : List IdName)
    (customFieldDefinitions : Option (List CustomFieldDef) := none) :
    Except String Obj :=
  match enrichPersonBase person copperAccountId users contactTypes with
  | Except.error e => Except.error e
  | Except.ok o =>
    match customFieldsStep o customFieldDefinitions (some []) with
    | Except.error e => Except.error e
    | Except.ok step =>
      match step.2 with
      | none =>
        Except.error "TypeError: cannot convert undefined or null to object"
      | some customFields =>
        Except.ok (pruneObjectToSchema step.1 personSchemaKeys
          (objKeys customFields))

/-- The pure first half of the current enrichCompanyResponse: url,
fullAddress, assignee. -/
def enrichCompanyBase (company : Obj) (copperAccountId : String)
    (users : List CopperUser) : Obj :=
  let o := objSet company "url"
    (JsVal.str (getCopperUrl copperAccountId "organization"
      (jsValToString (objGet company "id"))))
  let o := objSet o "fullAddress"
    (JsVal.str (concatenateAddress (objGet o "address")))
  -- if (users): the typed users array is always truthy
  let assignee := users.find? (fun user => jsEqStr user.id (objGet o "assignee_id"))
  objSet o "assignee" (mkAssignee o assignee)

/-- enrichCompanyResponse, current revision: the base steps, custom fields
(customFields initialized to an empty object), pruning. -/
def enrichCompanyResponse (company : Obj) (copperAccountId : String)
    (users : List CopperUser)
    (customFieldDefinitions : Option (List CustomFieldDef) := none) :
    Except String Obj :=
  let o := enrichCompanyBase company copperAccountId users
  match customFieldsStep o customFieldDefinitions (some []) with
  | Except.error e => Except.error e
  | Except.ok step =>
    match step.2 with
    | none =>
      Except.error "TypeError: cannot convert undefined or null to object"
    | some customFields =>
      Except.ok (pruneObjectToSchema step.1 companySchemaKeys
        (objKeys customFields))

/-! ## Record enrichment, older helpers revisions (src/helpers.ts)

helpers.ts carries two earlier revisions of the same module. Neither handles
custom fields nor prunes; both mutate and return the record. In both, the
opportunity variant reads `pipeline.stages` without optional chaining, so an
unmatched pipeline id is a TypeError. -/

/-- enrichPersonResponse from the first helpers.ts revision (fullAddress,
url, company reference with id/name keys, assignee, contactType; total). -/
def enrichPersonResponseV1 (person : Obj) (copperAccountId : String)
    (users : List CopperUser) (contactTypes : List IdName) : Obj :=
  let o := objSet person "fullAddress"
    (JsVal.str (concatenateAddress (objGet person "address")))
  let o := objSet o "url"
    (JsVal.str (getCopperUrl copperAccountId "contact"
      (jsValToString (objGet o "id"))))
  let o := if jsTruthy (objGet o "company_id") then
      objSet o "company" (JsVal.obj
        [("id", objGet o "company_id"), ("name", objGet o "company_name")])
    else o
  let assignee := users.find? (fun user => jsEqStr user.id (objGet o "assignee_id"))
  let o := objSet o "assignee" (mkAssignee o assignee)
  objSet o "contactType" (lookupIdName contactTypes (objGet o "contact_type_id"))

/-- enrichOpportunityResponse from the first helpers.ts revision. After
`opportunity.pipeline = pipeline?.name`, the next line reads
`pipeline.stages` without optional chaining: when the pipeline lookup
missed, that read is a TypeError and the enrichment throws. -/
def enrichOpportunityResponseV1 (opportunity : Obj) (copperAccountId : String)
    (users : List CopperUser) (pipelines : List Pipeline)
    (customerSources lossReasons : List IdName)
    (withReferences : Bool := false) : Except String Obj := do
  let o := objSet opportunity "url"
    (JsVal.str (getCopperUrl copperAccountId "deal"
      (jsValToString (objGet opportunity "id"))))
  let assignee := users.find? (fun user => jsEqStr user.id (objGet o "assignee_id"))
  let o := objSet o "assignee" (mkAssignee o assignee)
  let pipeline := pipelines.find? (fun p => jsEqStr p.id (objGet o "pipeline_id"))
  let o := objSet o "pipeline"
    (match pipeline with
     | some p => JsVal.str p.name
     | none => JsVal.undef)
  let o ←
    match pipeline with
    | none => Except.error "TypeError: cannot read properties of undefined"
    | some p =>
      Except.ok (objSet o "pipelineStage"
        (match p.stages.find? (fun stage =>
            jsEqStr stage.id (objGet o "pipeline_stage_id")) with
         | some st => JsVal.str st.name
         | none => JsVal.undef))
  let o := objSet o "customerSource"
    (lookupIdName customerSources (objGet o "customer_source_id"))
  let o := objSet o "lossReason"
    (lookupIdName lossReasons (objGet o "loss_reason_id"))
  Except.ok (referenceStubsStep o withReferences)

/-- enrichOpportunityResponse from the second helpers.ts revision: as V1 but
the reference stubs use companyId/companyName and personId keys. -/
def enrichOpportunityResponseV2 (opportunity : Obj) (copperAccountId : String)
    (users : List CopperUser) (pipelines : List Pipeline)
    (customerSources lossReasons : List IdName)
    (withReferences : Bool := false) : Except String Obj := do
  let o := objSet opportunity "url"
    (JsVal.str (getCopperUrl copperAccountId "deal"
      (jsValToString (objGet opportunity "id"))))
  let assignee := users.find? (fun user => jsEqStr user.id (objGet o "assignee_id"))
  let o := objSet o "assignee" (mkAssignee o assignee)
  let pipeline := pipelines.find? (fun p => jsEqStr p.id (objGet o "pipeline_id"))
  let o := objSet o "pipeline"
    (match pipeline with
     | some p => JsVal.str p.name
     | none => JsVal.undef)
  let o ←
    match pipeline with
    | none => Except.error "TypeError: cannot read properties of undefined"
    | some p =>
      Except.ok (objSet o "pipelineStage"
        (match p.stages.find? (fun stage =>
            jsEqStr stage.id (objGet o "pipeline_stage_id")) with
         | some st => JsVal.str st.name
         | none => JsVal.undef))
  let o := objSet o "customerSource"
    (lookupIdName customerSources (objGet o "customer_source_id"))
  let o := objSet o "lossReason"
    (lookupIdName lossReasons (objGet o "loss_reason_id"))
  let o := if withReferences then
      let o1 := if jsTruthy (objGet o "company_id") then
          objSet o "company" (JsVal.obj
            [("companyId", objGet o "company_id"),
             ("companyName", objGet o "company_name")])
        else o
      if jsTruthy (objGet o1 "primary_contact_id") then
        objSet o1 "primaryContact" (JsVal.obj
          [("personId", objGet o1 "primary_contact_id"),
           ("fullName", JsVal.str "Not found")])
      else o1
    else o
  Except.ok o

/-! ## Sync table functions

Each sync function is embedded as a pure function of its continuation, the
page of raw records the search request returned, and the reference datasets
fetched alongside it. -/

/-- The incoming page number: `continuation?.pageNumber || 1`, so a missing
continuation or a falsy page number starts at page 1. -/
def jsPageNumber (continuation : JsVal) : Int :=
  match jsGetOpt continuation "pageNumber" with
  | JsVal.num k => if k = 0 then 1 else k
  | _ => 1

/-- Array.map over an enrichment that can throw: the first thrown error
aborts the whole sync invocation. -/
def mapExcept {α β ε : Type} (f : α → Except ε β) : List α → Except ε (List β)
  | [] => Except.ok []
  | a :: as => do
    let b ← f a
    let bs ← mapExcept f as
    Except.ok (b :: bs)

/-- syncOpportunities (formulas.ts, current revision): enrich the page with
references, then emit a continuation for the next page exactly when the page
was full; nextContinuation is initialized to an empty object, so a short
page returns that empty object (which carries no pageNumber). -/
def syncOpportunities (continuation : JsVal) (pageRecords : List Obj)
    (copperAccountId : String) (users : List CopperUser)
    (pipelines : List Pipeline) (customerSources lossReasons : List IdName)
    (customFieldDefinitions : List CustomFieldDef) :
    Except String (List Obj × JsVal) := do
  let pageNumber := jsPageNumber continuation
  let opportunities ← mapExcept (fun opportunity =>
    enrichOpportunityResponse opportunity copperAccountId users pipelines
      customerSources lossReasons (some customFieldDefinitions) true) pageRecords
  let nextContinuation := if opportunities.length = PAGE_SIZE then
      JsVal.obj [("pageNumber", JsVal.num (pageNumber + 1))]
    else JsVal.obj []
  Except.ok (opportunities, nextContinuation)

/-- syncCompanies (formulas.ts, current revision); nextContinuation is
initialized to undefined here. -/
def syncCompanies (continuation : JsVal) (pageRecords : List Obj)
    (copperAccountId : String) (users : List CopperUser)
    (customFieldDefinitions : List CustomFieldDef) :
    Except String (List Obj × JsVal) := do
  let pageNumber := jsPageNumber continuation
  let companies ← mapExcept (fun company =>
    enrichCompanyResponse company copperAccountId users
      (some customFieldDefinitions)) pageRecords
  let nextContinuation := if companies.length = PAGE_SIZE then
      JsVal.obj [("pageNumber", JsVal.num (pageNumber + 1))]
    else JsVal.undef
  Except.ok (companies, nextContinuation)

/-- syncPeople (formulas.ts, current revision). -/
def syncPeople (continuation : JsVal) (pageRecords : List Obj)
    (copperAccountId : String) (users : List CopperUser)
    (contactTypes : List IdName)
    (customFieldDefinitions : List CustomFieldDef) :
    Except String (List Obj × JsVal) := do
  let pageNumber := jsPageNumber continuation
  let people ← mapExcept (fun person =>
    enrichPersonResponse person copperAccountId users contactTypes
      (some customFieldDefinitions)) pageRecords
  let nextContinuation := if people.length = PAGE_SIZE then
      JsVal.obj [("pageNumber", JsVal.num (pageNumber + 1))]
    else JsVal.undef
  Except.ok (people, nextContinuation)

/-- syncOpportunities from the second helpers.ts revision. The termination
check there is `if ((opportunities.length = PAGE_SIZE))`: an assignment, not
a comparison. Assigning to a JS array length resizes the array in place
(truncating, or padding with holes that read as undefined), and the
assignment expression evaluates to PAGE_SIZE, which is truthy, so the
continuation for the next page is emitted on every invocation. -/
def syncOpportunitiesV2 (continuation : JsVal) (pageRecords : List Obj)
    (copperAccountId : String) (users : List CopperUser)
    (pipelines : List Pipeline) (customerSources lossReasons : List IdName) :
    Except String (List JsVal × JsVal) := do
  let pageNumber := jsPageNumber continuation
  let opportunities ← mapExcept (fun opportunity =>
    enrichOpportunityResponseV2 opportunity copperAccountId users pipelines
      customerSources lossReasons true) pageRecords
  let resized := (opportunities.map JsVal.obj).take PAGE_SIZE ++
    List.replicate (PAGE_SIZE - opportunities.length) JsVal.undef
  let nextContinuation := JsVal.obj [("pageNumber", JsVal.num (pageNumber + 1))]
  Except.ok (resized, nextContinuation)

/-! ## Action formulas (formulas.ts) -/

/-- An HTTP request issued against the Copper API, as far as the mutation
claims need it: reads and record mutations. -/
inductive ApiRequest : Type where
  | get (endpoint : String) : ApiRequest
  | put (endpoint : String) (payload : Obj) : ApiRequest

/-- Whether a request is a mutation. -/
def ApiRequest.isPut : ApiRequest → Bool
  | ApiRequest.put _ _ => true
  | ApiRequest.get _ => false

/-- getRecordApiEndpoint: plural path segment looked up in RECORD_TYPES
(`?.plural`, so an unknown type coerces undefined into the path). -/
def getRecordApiEndpoint (recordType : String) (id : String) : String :=
  (match RECORD_TYPES.find? (fun t => t.primary = recordType) with
   | some t => t.plural
   | none => "undefined") ++ "/" ++ id

/-- updateOpportunityStatus up to the issuance of the mutation: the list of
requests issued against the API together with the thrown user-visible error,
if any. The enrichment of the PUT response performs only further reads and
is modelled separately (enrichOpportunityResponse). Steps in source order:
resolve the identifier, check the record type, title-case and validate the
status, optionally resolve a loss reason (issuing the cached GET first),
then PUT the payload. -/
def updateOpportunityStatusTrace (urlOrId newStatus : String)
    (lossReason : Option String) (lossReasons : List IdName) :
    List ApiRequest × Option String :=
  match getIdFromUrlOrId urlOrId with
  | Except.error e => ([], some e)
  | Except.ok opportunityId =>
    match checkRecordIdType opportunityId.type "opportunity" with
    | some e => ([], some e)
    | none =>
      match titleCase newStatus with
      | Except.error e => ([], some e)
      | Except.ok ns =>
        if STATUS_OPTIONS.contains ns then
          -- if (lossReason && newStatus === "Lost")
          match lossReason with
          | some lr =>
            if lr ≠ "" ∧ ns = "Lost" then
              match lossReasons.find? (fun reason => reason.name = lr) with
              | some lossReasonObject =>
                ([ApiRequest.get "loss_reasons",
                  ApiRequest.put ("opportunities/" ++ opportunityId.id)
                    [("status", JsVal.str ns),
                     ("loss_reason_id", JsVal.str lossReasonObject.id)]], none)
              | none =>
                ([ApiRequest.get "loss_reasons"],
                 some ("Loss reason must be " ++
                   humanReadableList (lossReasons.map IdName.name) "or"))
            else
              ([ApiRequest.put ("opportunities/" ++ opportunityId.id)
                  [("status", JsVal.str ns)]], none)
          | none =>
            ([ApiRequest.put ("opportunities/" ++ opportunityId.id)
                [("status", JsVal.str ns)]], none)
        else
          ([], some ("New status must be " ++
            humanReadableList STATUS_OPTIONS "or"))

/-- addOrRemoveTag up to the issuance of the mutation, given the tag list the
GET on the record returned: resolve and check the identifier, fetch the
record, filter out every exact match of the tag when removing or push the
tag when adding, then PUT the full replacement tag list. -/
def addOrRemoveTagTrace (recordType urlOrId tag : String) (remove : Bool)
    (currentTags : List String) : List ApiRequest × Option String :=
  match getIdFromUrlOrId urlOrId with
  | Except.error e => ([], some e)
  | Except.ok recordId =>
    match checkRecordIdType recordId.type recordType with
    | some e => ([], some e)
    | none =>
      let endpoint := getRecordApiEndpoint recordType recordId.id
      let tags := if remove then
          currentTags.filter (fun candidateTag => candidateTag ≠ tag)
        else currentTags ++ [tag]
      ([ApiRequest.get endpoint,
        ApiRequest.put endpoint [("tags", JsVal.arr (tags.map JsVal.str))]],
       none)

/-! ## Specification-side helpers used by the theorem statements -/

/-- One address component entry: present components become a property, the
others are simply absent from the object. -/
def optEntry (k : String) : Option String → Obj
  | some s => [(k, JsVal.str s)]
  | none => []

/-- An address object holding exactly the present components. -/
def mkAddress (street city state country postalCode : Option String) : JsVal :=
  JsVal.obj (optEntry "street" street ++ optEntry "city" city ++
    optEntry "state" state ++ optEntry "country" country ++
    optEntry "postal_code" postalCode)

/-- The present components of an address, in order: the components that
carry a non-empty string. An empty-string component is falsy in JS, so the
source treats it exactly like an absent one. -/
def presentComponents (comps : List (Option String)) : List String :=
  comps.reduceOption.filter (fun c => c ≠ "")

/-- Join with a trailing separator after every part, the shape the address
accumulator has before slice(0, -2). -/
def trailJoin : List String → String
  | [] => ""
  | p :: rest => p ++ ", " ++ trailJoin rest

/-- Tail of a separated join: separator before each element. -/
def sepJoinTail (s : String) : List String → String
  | [] => ""
  | a :: as => s ++ a ++ sepJoinTail s as

/-- The address accumulation loop, as a fold over the component values in
source order. -/
def addrFold : List JsVal → String → String
  | [], acc => acc
  | v :: vs, acc =>
    addrFold vs (if jsTruthy v then acc ++ jsValToString v ++ ", " else acc)

/-- String coercions of the truthy values of a list. -/
def truthyStrings (vs : List JsVal) : List String :=
  (vs.filter jsTruthy).map jsValToString

/-- The value an optional string component takes on a record. -/
def optStrVal : Option String → JsVal
  | some s => JsVal.str s
  | none => JsVal.undef

/-- The object inside a successful enrichment result (the empty object on an
error), for stating concrete evaluations without binders. -/
def exceptObj : Except String Obj → Obj
  | Except.ok o => o
  | Except.error _ => []

/-- The property key a custom-field entry maps to in
prepareCustomFieldsOnRecord: the name of the matched definition, or the
coerced key "undefined" on a lookup miss; none when reading the entry is a
TypeError. -/
def entryName (defs : List CustomFieldDef) (entry : JsVal) : Option String :=
  match jsGetE entry "custom_field_definition_id" with
  | Except.error _ => none
  | Except.ok defId =>
    some (match defs.find? (fun d => jsStrictEqStr d.id defId) with
      | some d => d.name
      | none => "undefined")

/-- The value a custom-field entry maps to: the computed value when truthy,
else the raw value; none when reading the entry is a TypeError. -/
def entryChosen (entry : JsVal) : Option JsVal :=
  match jsGetE entry "computed_value", jsGetE entry "value" with
  | Except.ok cv, Except.ok v => some (if jsTruthy cv then cv else v)
  | _, _ => none

end CodaCopper

/-! # Theorems -/

namespace CodaCopper

theorem strMkData : ∀ s : String, String.mk s.data = s
  | ⟨_⟩ => rfl

theorem jsSliceDropTwo_append (a b : String) (h : 2 ≤ b.length) :
    jsSliceDropTwo (a ++ b) = a ++ jsSliceDropTwo b := by
  unfold jsSliceDropTwo
  rw [String.data_append, List.take_append_eq_append_take, List.length_append]
  have hb : 2 ≤ b.data.length := h
  have h1 : a.data.length ≤ a.data.length + b.data.length - 2 := by omega
  have h2 : a.data.length + b.data.length - 2 - a.data.length =
      b.data.length - 2 := by omega
  rw [List.take_of_length_le h1, h2]
  have : String.mk (a.data ++ b.data.take (b.data.length - 2)) =
      String.mk a.data ++ String.mk (b.data.take (b.data.length - 2)) := rfl
  rw [this, strMkData]

theorem jsSliceDropTwo_trail (p : String) : jsSliceDropTwo (p ++ ", ") = p := by
  unfold jsSliceDropTwo
  rw [String.data_append]
  have h : (p.data ++ (", ").data).length - 2 = p.data.length := by
    simp [List.length_append]
  rw [h]
  have h2 : (", ").data = [',', ' '] := rfl
  rw [h2, List.take_left, strMkData]

theorem intercalate_go_eq (s : String) : ∀ (as : List String) (acc : String),
    String.intercalate.go acc s as = acc ++ sepJoinTail s as
  | [], acc => by
    rw [String.intercalate.go, sepJoinTail, String.append_empty]
  | a :: as, acc => by
    rw [String.intercalate.go, intercalate_go_eq s as, sepJoinTail]
    simp [String.append_assoc]

theorem intercalate_cons (s a : String) (as : List String) :
    String.intercalate s (a :: as) = a ++ sepJoinTail s as := by
  show String.intercalate.go a s as = _
  exact intercalate_go_eq s as a

theorem slice_trailJoin : ∀ parts : List String,
    jsSliceDropTwo (trailJoin parts) = String.intercalate ", " parts
  | [] => rfl
  | [p] => by
    rw [trailJoin, trailJoin, String.append_empty, jsSliceDropTwo_trail,
      intercalate_cons, sepJoinTail, String.append_empty]
  | p :: q :: rs => by
    have h2 : 2 ≤ (trailJoin (q :: rs)).length := by
      rw [trailJoin, String.length_append, String.length_append]
      have : (", " : String).length = 2 := rfl
      omega
    rw [trailJoin, jsSliceDropTwo_append _ _ h2, slice_trailJoin (q :: rs),
      intercalate_cons, intercalate_cons, sepJoinTail, String.append_assoc,
      String.append_assoc]

theorem addrFold_eq : ∀ (vs : List JsVal) (acc : String),
    addrFold vs acc = acc ++ trailJoin (truthyStrings vs)
  | [], acc => by
    rw [addrFold, truthyStrings]
    simp [trailJoin, String.append_empty]
  | v :: vs, acc => by
    rw [addrFold, addrFold_eq vs]
    by_cases h : jsTruthy v
    · have ht : truthyStrings (v :: vs) =
          jsValToString v :: truthyStrings vs := by
        simp [truthyStrings, h]
      rw [if_pos h, ht, trailJoin]
      simp [String.append_assoc]
    · have ht : truthyStrings (v :: vs) = truthyStrings vs := by
        simp [truthyStrings, h]
      rw [if_neg h, ht]

theorem truthy_opts : ∀ comps : List (Option String),
    truthyStrings (comps.map optStrVal) = presentComponents comps
  | [] => rfl
  | none :: comps => by
    have := truthy_opts comps
    simp only [List.map_cons, optStrVal] at *
    simpa [truthyStrings, presentComponents, jsTruthy, List.reduceOption]
      using this
  | some s :: comps => by
    have := truthy_opts comps
    by_cases hs : s = ""
    · subst hs
      simp only [List.map_cons, optStrVal] at *
      simpa [truthyStrings, presentComponents, jsTruthy, List.reduceOption]
        using this
    · simp only [List.map_cons, optStrVal] at *
      simpa [truthyStrings, presentComponents, jsTruthy, jsValToString, hs,
        List.reduceOption] using this

theorem mkAddress_gets (street city state country postalCode : Option String) :
    [jsGetOpt (mkAddress street city state country postalCode) "street",
     jsGetOpt (mkAddress street city state country postalCode) "city",
     jsGetOpt (mkAddress street city state country postalCode) "state",
     jsGetOpt (mkAddress street city state country postalCode) "country",
     jsGetOpt (mkAddress street city state country postalCode) "postal_code"] =
    [street, city, state, country, postalCode].map optStrVal := by
  rcases street with _ | s <;> rcases city with _ | c <;>
    rcases state with _ | st <;> rcases country with _ | co <;>
    rcases postalCode with _ | po <;> rfl

/-- C4: over every subset of present address components, concatenateAddress
returns exactly the present (non-empty) components joined by a comma and a
space in the order street, city, state, country, postal code, with no
leading or trailing separator; an address with no present components, and an
absent (undefined or null) address, give the empty string. -/
theorem C4_concatenateAddress_joins_present_components
    (street city state country postalCode : Option String) :
    concatenateAddress (mkAddress street city state country postalCode) =
      String.intercalate ", "
        (presentComponents [street, city, state, country, postalCode]) ∧
    concatenateAddress JsVal.undef = "" ∧
    concatenateAddress JsVal.jsNull = "" := by
  refine ⟨?_, rfl, rfl⟩
  have h1 : concatenateAddress (mkAddress street city state country postalCode) =
      jsSliceDropTwo (addrFold
        [jsGetOpt (mkAddress street city state country postalCode) "street",
         jsGetOpt (mkAddress street city state country postalCode) "city",
         jsGetOpt (mkAddress street city state country postalCode) "state",
         jsGetOpt (mkAddress street city state country postalCode) "country",
         jsGetOpt (mkAddress street city state country postalCode) "postal_code"]
        "") := rfl
  rw [h1, mkAddress_gets, addrFold_eq, String.empty_append, slice_trailJoin,
    truthy_opts]

/-- C6: checkRecordIdType never fails on a null actual type or when the
actual type equals the expected one; for an actual record type different
from the expected type it always fails, the message contains both types
article-prefixed, and the article is chosen phonetically from the first
letter. -/
theorem C6_checkRecordIdType_mismatch (t e : String)
    (ht : t ∈ ["person", "company", "opportunity"]) (hne : t ≠ e) :
    (∀ e2, checkRecordIdType none e2 = none) ∧
    (∀ e2, checkRecordIdType (some e2) e2 = none) ∧
    checkRecordIdType (some t) e =
      some ("Expected " ++ addIndefiniteArticle e ++ ", but got " ++
        addIndefiniteArticle t) ∧
    (addIndefiniteArticle t).data <:+:
      ("Expected " ++ addIndefiniteArticle e ++ ", but got " ++
        addIndefiniteArticle t).data ∧
    (addIndefiniteArticle e).data <:+:
      ("Expected " ++ addIndefiniteArticle e ++ ", but got " ++
        addIndefiniteArticle t).data ∧
    (∀ (w : String) (c : Char) (rest : List Char), w.data = c :: rest →
      addIndefiniteArticle w =
        (if ['a', 'e', 'i', 'o', 'u'].contains c then "an" else "a") ++
          " " ++ w) := by
  refine ⟨fun e2 => rfl, ?_, ?_, ?_, ?_, ?_⟩
  · intro e2
    simp [checkRecordIdType]
  · have hne2 : t ≠ "" := by
      simp only [List.mem_cons, List.not_mem_nil, or_false] at ht
      rcases ht with h | h | h <;> subst h <;> decide
    simp [checkRecordIdType, hne, hne2]
  · refine List.IsSuffix.isInfix ?_
    have hd : ("Expected " ++ addIndefiniteArticle e ++ ", but got " ++
        addIndefiniteArticle t).data =
        ("Expected " ++ addIndefiniteArticle e ++ ", but got ").data ++
          (addIndefiniteArticle t).data := by
      rw [String.data_append]
    rw [hd]
    exact List.suffix_append _ _
  · refine ⟨("Expected " : String).data,
      (", but got " ++ addIndefiniteArticle t).data, ?_⟩
    simp [String.data_append, List.append_assoc]
  · intro w c rest hw
    simp [addIndefiniteArticle, hw]

/-- C6 witness: a company against an expected opportunity fails with a
message holding both "an opportunity" and "a company". -/
theorem C6_checkRecordIdType_mismatch_witness :
    checkRecordIdType (some "company") "opportunity" =
      some ("Expected " ++ addIndefiniteArticle "opportunity" ++
        ", but got " ++ addIndefiniteArticle "company") ∧
    "Expected " ++ addIndefiniteArticle "opportunity" ++ ", but got " ++
      addIndefiniteArticle "company" =
      "Expected an opportunity, but got a company" :=
  ⟨(C6_checkRecordIdType_mismatch "company" "opportunity" (by decide)
      (by decide)).2.2.1, by decide⟩

/-- C8: addOrRemoveTag issues the GET on the record and then a PUT whose tag
list is the current list with every exact match filtered out (remove), or
the current list with the tag appended (add); hence removing an absent tag
leaves the list unchanged, and adding always raises the multiplicity of the
tag by one, so adding a tag already present produces a duplicate. -/
theorem C8_addOrRemoveTag_tag_list (recordType urlOrId tag : String)
    (remove : Bool) (currentTags : List String) (rid : RecordId)
    (h1 : getIdFromUrlOrId urlOrId = Except.ok rid)
    (h2 : checkRecordIdType rid.type recordType = none) :
    addOrRemoveTagTrace recordType urlOrId tag remove currentTags =
      ([ApiRequest.get (getRecordApiEndpoint recordType rid.id),
        ApiRequest.put (getRecordApiEndpoint recordType rid.id)
          [("tags", JsVal.arr
            ((if remove then
                currentTags.filter (fun candidateTag => candidateTag ≠ tag)
              else currentTags ++ [tag]).map JsVal.str))]], none) ∧
    (tag ∉ currentTags →
      currentTags.filter (fun candidateTag => candidateTag ≠ tag) =
        currentTags) ∧
    (currentTags ++ [tag]).count tag = currentTags.count tag + 1 ∧
    (tag ∈ currentTags → 2 ≤ (currentTags ++ [tag]).count tag) := by
  refine ⟨?_, ?_, ?_, ?_⟩
  · simp only [addOrRemoveTagTrace, h1, h2]
  · intro hnot
    rw [List.filter_eq_self]
    intro a ha
    simp only [ne_eq, decide_eq_true_eq]
    intro haeq
    exact hnot (haeq ▸ ha)
  · rw [List.count_append]
    simp [List.count_singleton]
  · intro hmem
    rw [List.count_append]
    have h1t : 1 ≤ currentTags.count tag := List.one_le_count_iff.mpr hmem
    have h2t : List.count tag [tag] = 1 := by simp
    omega

/-- C8 witness: adding the tag "x" to a record with tag list ["x"] sends
["x", "x"]. -/
theorem C8_addOrRemoveTag_tag_list_witness :
    addOrRemoveTagTrace "person" "123456" "x" false ["x"] =
      ([ApiRequest.get (getRecordApiEndpoint "person" "123456"),
        ApiRequest.put (getRecordApiEndpoint "person" "123456")
          [("tags", JsVal.arr
            ((if false then
                (["x"] : List String).filter
                  (fun candidateTag => candidateTag ≠ "x")
              else ["x"] ++ ["x"]).map JsVal.str))]], none) ∧
    ("x" ∈ (["x"] : List String) → 2 ≤ ((["x"] : List String) ++ ["x"]).count "x") :=
  ⟨(C8_addOrRemoveTag_tag_list "person" "123456" "x" false ["x"]
      ⟨"123456", none⟩ rfl rfl).1,
   (C8_addOrRemoveTag_tag_list "person" "123456" "x" false ["x"]
      ⟨"123456", none⟩ rfl rfl).2.2.2⟩

theorem lossMsg_ne_statusMsg (x y : String) :
    ("Loss reason must be " ++ x) ≠ ("New status must be " ++ y) := by
  intro h
  have hd := congrArg String.data h
  rw [String.data_append, String.data_append] at hd
  have hL : ("Loss reason must be " : String).data =
      'L' :: ("oss reason must be " : String).data := rfl
  have hN : ("New status must be " : String).data =
      'N' :: ("ew status must be " : String).data := rfl
  rw [hL, hN, List.cons_append, List.cons_append] at hd
  injection hd with hc _
  exact absurd hc (by decide)

theorem humanReadableList_two (a b conj : String) :
    humanReadableList [a, b] conj = a ++ " " ++ conj ++ " " ++ b := by
  show String.intercalate (" " ++ conj ++ " ") [a, b] = _
  rw [intercalate_cons, sepJoinTail, sepJoinTail, String.append_empty]
  simp [String.append_assoc]

/-- C7: with a resolvable opportunity identifier, updateOpportunityStatus
throws the invalid-status error exactly when the title-cased status is not
one of the four legal options, and then issues no request at all; whenever
any validation error is thrown (status or loss reason) no mutation request
is issued; the invalid-status message lists the options as
"Open, Won, Lost, or Abandoned", and humanReadableList formats one item
alone, two items with the conjunction, and three or more items
comma-separated with the conjunction before the last one. -/
theorem C7_updateOpportunityStatus_validates_status
    (urlOrId newStatus : String) (lossReason : Option String)
    (lossReasons : List IdName) (rid : RecordId) (ts : String)
    (h1 : getIdFromUrlOrId urlOrId = Except.ok rid)
    (h2 : checkRecordIdType rid.type "opportunity" = none)
    (h4 : titleCase newStatus = Except.ok ts) :
    ((updateOpportunityStatusTrace urlOrId newStatus lossReason
        lossReasons).2 =
      some ("New status must be " ++ humanReadableList STATUS_OPTIONS "or") ↔
      ts ∉ STATUS_OPTIONS) ∧
    (ts ∉ STATUS_OPTIONS →
      (updateOpportunityStatusTrace urlOrId newStatus lossReason
        lossReasons).1 = []) ∧
    ((updateOpportunityStatusTrace urlOrId newStatus lossReason
        lossReasons).2 ≠ none →
      ∀ r ∈ (updateOpportunityStatusTrace urlOrId newStatus lossReason
        lossReasons).1, r.isPut = false) ∧
    ("New status must be " ++ humanReadableList STATUS_OPTIONS "or" =
      "New status must be Open, Won, Lost, or Abandoned") ∧
    (∀ a : String, humanReadableList [a] "or" = a) ∧
    (∀ a b : String, humanReadableList [a, b] "or" = a ++ " or " ++ b) ∧
    (∀ a b c : String,
      humanReadableList [a, b, c] "or" = a ++ ", " ++ b ++ ", or " ++ c) := by
  have hmem : STATUS_OPTIONS.contains ts = true ↔ ts ∈ STATUS_OPTIONS :=
    List.elem_iff
  refine ⟨?_, ?_, ?_, by decide, fun a => rfl, ?_, ?_⟩
  · simp only [updateOpportunityStatusTrace, h1, h2, h4]
    by_cases hc : ts ∈ STATUS_OPTIONS
    · rw [if_pos (hmem.mpr hc)]
      simp only [hc, not_true, iff_false]
      rcases lossReason with _ | lr
      · intro hcontra
        exact Option.noConfusion hcontra
      · dsimp only
        by_cases hcond : (lr ≠ "" ∧ ts = "Lost")
        · rw [if_pos hcond]
          cases hfind : lossReasons.find? (fun reason => reason.name = lr) with
          | none =>
            intro hcontra
            exact lossMsg_ne_statusMsg _ _ (Option.some.inj hcontra)
          | some lrObj =>
            intro hcontra
            exact Option.noConfusion hcontra
        · rw [if_neg hcond]
          intro hcontra
          exact Option.noConfusion hcontra
    · rw [if_neg (fun hct => hc (hmem.mp hct))]
      simp [hc]
  · intro hns
    simp only [updateOpportunityStatusTrace, h1, h2, h4]
    rw [if_neg (fun hct => hns (hmem.mp hct))]
  · intro herr r hr
    simp only [updateOpportunityStatusTrace, h1, h2, h4] at hr herr
    by_cases hc : ts ∈ STATUS_OPTIONS
    · rw [if_pos (hmem.mpr hc)] at hr herr
      rcases lossReason with _ | lr
      · exact absurd rfl herr
      · dsimp only at hr herr
        by_cases hcond : (lr ≠ "" ∧ ts = "Lost")
        · rw [if_pos hcond] at hr herr
          cases hfind : lossReasons.find? (fun reason => reason.name = lr) with
          | none =>
            rw [hfind] at hr
            simp only [List.mem_singleton] at hr
            subst hr
            rfl
          | some lrObj =>
            rw [hfind] at herr
            exact absurd rfl herr
        · rw [if_neg hcond] at hr herr
          exact absurd rfl herr
    · rw [if_neg (fun hct => hc (hmem.mp hct))] at hr
      exact absurd hr (List.not_mem_nil r)
  · intro a b
    rw [humanReadableList_two]
    apply String.ext
    simp [String.data_append, List.append_assoc]
  · intro a b c
    show String.intercalate ", " [a, b] ++ ", " ++ "or" ++ " " ++ c = _
    rw [intercalate_cons, sepJoinTail, sepJoinTail, String.append_empty]
    apply String.ext
    simp [String.data_append, List.append_assoc]

/-- C7 witness: the status "pending" title-cases to "Pending", which is not
a legal option, so the invocation throws the invalid-status error and issues
no request. -/
theorem C7_updateOpportunityStatus_validates_status_witness :
    (updateOpportunityStatusTrace "123456" "pending" none []).2 =
      some ("New status must be " ++ humanReadableList STATUS_OPTIONS "or") ∧
    (updateOpportunityStatusTrace "123456" "pending" none []).1 = [] :=
  have h := C7_updateOpportunityStatus_validates_status "123456" "pending"
    none [] ⟨"123456", none⟩ "Pending" rfl rfl rfl
  ⟨h.1.mpr (by decide), h.2.1 (by decide)⟩

/-! ## Object-model lemmas -/

theorem objGet_cons (kv : String × JsVal) (rest : Obj) (k : String) :
    objGet (kv :: rest) k = if kv.1 = k then kv.2 else objGet rest k := by
  by_cases h : kv.1 = k
  · simp [objGet, List.find?, h]
  · simp [objGet, List.find?, h]

theorem objGet_nil (k : String) : objGet [] k = JsVal.undef := rfl

theorem objGet_append_of_not_mem (o l : Obj) (k : String)
    (h : k ∉ o.map Prod.fst) : objGet (o ++ l) k = objGet l k := by
  induction o with
  | nil => rfl
  | cons kv rest ih =>
    have hne : kv.1 ≠ k := by
      intro he
      exact h (by rw [List.map_cons, he]; exact List.mem_cons_self k _)
    rw [List.cons_append, objGet_cons, if_neg hne]
    exact ih (fun hm => h (List.mem_cons_of_mem _ hm))

theorem objSet_map_keys (o : Obj) (k : String) (v : JsVal) :
    (o.map (fun kv => if kv.1 = k then (k, v) else kv)).map Prod.fst =
      o.map Prod.fst := by
  rw [List.map_map]
  refine List.map_congr_left ?_
  intro kv _
  by_cases h : kv.1 = k
  · simp [h, Function.comp]
  · simp [h, Function.comp]

theorem objGet_objSet_self (o : Obj) (k : String) (v : JsVal) :
    objGet (objSet o k v) k = v := by
  unfold objSet
  by_cases hc : (o.map Prod.fst).contains k
  · rw [if_pos hc]
    induction o with
    | nil => simp at hc
    | cons kv rest ih =>
      rw [List.map_cons, objGet_cons]
      by_cases hk : kv.1 = k
      · rw [if_pos hk]
        simp
      · rw [if_neg hk]
        rw [if_neg hk]
        refine ih ?_
        rw [List.map_cons, List.contains_cons] at hc
        rcases Bool.or_eq_true_iff.mp hc with h | h
        · exact absurd (beq_iff_eq.mp h).symm hk
        · exact h
  · rw [if_neg hc]
    have hnm : k ∉ o.map Prod.fst := fun hm => hc (List.elem_iff.mpr hm)
    rw [objGet_append_of_not_mem _ _ _ hnm, objGet_cons, if_pos rfl]

theorem objGet_objSet_ne (o : Obj) (k k2 : String) (v : JsVal)
    (h : k2 ≠ k) : objGet (objSet o k v) k2 = objGet o k2 := by
  unfold objSet
  by_cases hc : (o.map Prod.fst).contains k
  · rw [if_pos hc]
    clear hc
    induction o with
    | nil => rfl
    | cons kv rest ih =>
      rw [List.map_cons, objGet_cons, objGet_cons]
      by_cases hk : kv.1 = k
      · rw [if_pos hk]
        dsimp only
        rw [if_neg (fun he => h he.symm), hk, if_neg (fun he => h he.symm)]
        exact ih
      · rw [if_neg hk]
        by_cases he : kv.1 = k2
        · rw [if_pos he, if_pos he]
        · rw [if_neg he, if_neg he]
          exact ih
  · rw [if_neg hc]
    clear hc
    induction o with
    | nil =>
      rw [List.nil_append, objGet_cons, if_neg (fun he => h he.symm)]
    | cons kv rest ih =>
      rw [List.cons_append, objGet_cons, objGet_cons]
      by_cases he : kv.1 = k2
      · rw [if_pos he, if_pos he]
      · rw [if_neg he, if_neg he]
        exact ih

theorem objKeys_objSet (o : Obj) (k : String) (v : JsVal) :
    (objSet o k v).map Prod.fst =
      if (o.map Prod.fst).contains k then o.map Prod.fst
      else o.map Prod.fst ++ [k] := by
  unfold objSet
  by_cases hc : (o.map Prod.fst).contains k
  · rw [if_pos hc, if_pos hc, objSet_map_keys]
  · rw [if_neg hc, if_neg hc, List.map_append]
    rfl

theorem nodup_objSet (o : Obj) (k : String) (v : JsVal)
    (h : (o.map Prod.fst).Nodup) : ((objSet o k v).map Prod.fst).Nodup := by
  rw [objKeys_objSet]
  by_cases hc : (o.map Prod.fst).contains k
  · rw [if_pos hc]
    exact h
  · rw [if_neg hc]
    have hnm : k ∉ o.map Prod.fst := fun hm => hc (List.elem_iff.mpr hm)
    rw [List.nodup_append]
    exact ⟨h, List.nodup_singleton k,
      fun a ha hb => by
        simp only [List.mem_singleton] at hb
        exact hnm (hb ▸ ha)⟩

theorem objAssign_nil (o : Obj) : objAssign o [] = o := rfl

theorem objGet_objAssign_of_not_mem (src : Obj) (o : Obj) (k : String)
    (h : k ∉ src.map Prod.fst) : objGet (objAssign o src) k = objGet o k := by
  induction src generalizing o with
  | nil => rfl
  | cons kv rest ih =>
    have hne : k ≠ kv.1 := by
      intro he
      exact h (by rw [List.map_cons, he]; exact List.mem_cons_self kv.1 _)
    show objGet (objAssign (objSet o kv.1 kv.2) rest) k = _
    rw [ih (objSet o kv.1 kv.2) (fun hm => h (List.mem_cons_of_mem _ hm)),
      objGet_objSet_ne _ _ _ _ hne]

theorem nodup_objAssign (src : Obj) (o : Obj)
    (h : (o.map Prod.fst).Nodup) :
    ((objAssign o src).map Prod.fst).Nodup := by
  induction src generalizing o with
  | nil => exact h
  | cons kv rest ih =>
    exact ih (objSet o kv.1 kv.2) (nodup_objSet o kv.1 kv.2 h)

theorem prune_eq_filter_aux (keys : List String) :
    ∀ (o : Obj) (acc : Obj), (o.map Prod.fst).Nodup →
    (∀ kv ∈ o, kv.1 ∉ acc.map Prod.fst) →
    o.foldl (fun result kv =>
        if keys.contains kv.1 then objSet result kv.1 kv.2 else result) acc =
      acc ++ o.filter (fun kv => keys.contains kv.1)
  | [], acc, _, _ => by simp
  | kv :: rest, acc, hnd, hacc => by
    rw [List.foldl_cons]
    have hndr : (rest.map Prod.fst).Nodup := by
      rw [List.map_cons] at hnd
      exact hnd.of_cons
    have hhd : kv.1 ∉ rest.map Prod.fst := by
      rw [List.map_cons] at hnd
      exact (List.nodup_cons.mp hnd).1
    by_cases hc : keys.contains kv.1
    · rw [if_pos hc]
      have hset : objSet acc kv.1 kv.2 = acc ++ [kv] := by
        unfold objSet
        rw [if_neg (fun hm => (hacc kv (List.mem_cons_self kv rest))
          (List.elem_iff.mp hm))]
      rw [hset, prune_eq_filter_aux keys rest (acc ++ [kv]) hndr
        (by
          intro kv2 hkv2
          rw [List.map_append, List.mem_append]
          rintro (hm | hm)
          · exact hacc kv2 (List.mem_cons_of_mem _ hkv2) hm
          · simp only [List.map_cons, List.map_nil, List.mem_singleton] at hm
            exact hhd (hm ▸ List.mem_map_of_mem Prod.fst hkv2))]
      rw [List.filter_cons_of_pos (by simpa using hc), List.append_assoc]
      rfl
    · rw [if_neg hc, prune_eq_filter_aux keys rest acc hndr
        (fun kv2 hkv2 => hacc kv2 (List.mem_cons_of_mem _ hkv2)),
        List.filter_cons_of_neg (by simpa using hc)]

theorem prune_eq_filter (o : Obj) (sk ak : List String)
    (h : (o.map Prod.fst).Nodup) :
    pruneObjectToSchema o sk ak =
      o.filter (fun kv => (sk ++ ak).contains kv.1) := by
  unfold pruneObjectToSchema
  rw [prune_eq_filter_aux (sk ++ ak) o [] h (by simp)]
  rfl

theorem objGet_filter (o : Obj) (ks : List String) (k : String) :
    objGet (o.filter (fun kv => ks.contains kv.1)) k =
      if ks.contains k then objGet o k else JsVal.undef := by
  induction o with
  | nil =>
    simp only [List.filter_nil, objGet_nil]
    rw [ite_self]
  | cons kv rest ih =>
    by_cases he : kv.1 = k
    · subst he
      by_cases hc : ks.contains kv.1
      · rw [List.filter_cons_of_pos (by simpa using hc), objGet_cons,
          if_pos rfl, if_pos hc, objGet_cons, if_pos rfl]
      · rw [List.filter_cons_of_neg (by simpa using hc), ih, if_neg hc,
          if_neg hc]
    · by_cases hc : ks.contains kv.1
      · rw [List.filter_cons_of_pos (by simpa using hc), objGet_cons,
          if_neg he, ih]
        by_cases hck : ks.contains k
        · rw [if_pos hck, if_pos hck, objGet_cons, if_neg he]
        · rw [if_neg hck, if_neg hck]
      · rw [List.filter_cons_of_neg (by simpa using hc), ih]
        by_cases hck : ks.contains k
        · rw [if_pos hck, if_pos hck, objGet_cons, if_neg he]
        · rw [if_neg hck, if_neg hck]

/-! ## Custom-field preparation lemmas -/

theorem prepare_aux_skip (defs : List CustomFieldDef) :
    ∀ (es : List JsVal) (acc out : Obj),
    prepareCustomFieldsAux defs acc es = Except.ok out →
    ∀ k : String, (∀ e ∈ es, entryName defs e ≠ some k) →
    objGet out k = objGet acc k
  | [], acc, out, h, k, _ => by
    rw [prepareCustomFieldsAux] at h
    cases Except.ok.inj h
    rfl
  | e :: es, acc, out, h, k, hk => by
    rw [prepareCustomFieldsAux] at h
    rcases hid : jsGetE e "custom_field_definition_id" with m | defId
    · rw [hid] at h
      exact Except.noConfusion h
    · rw [hid] at h
      rcases hcv : jsGetE e "computed_value" with m | cv
      · rw [hcv] at h
        exact Except.noConfusion h
      · rcases hv : jsGetE e "value" with m | v
        · rw [hcv, hv] at h
          exact Except.noConfusion h
        · rw [hcv, hv] at h
          have hname : entryName defs e =
              some (match defs.find? (fun d => jsStrictEqStr d.id defId) with
                | some d => d.name
                | none => "undefined") := by
            rw [entryName, hid]
          have hkname :
              (match defs.find? (fun d => jsStrictEqStr d.id defId) with
                | some d => d.name
                | none => "undefined") ≠ k := by
            intro he
            exact hk e (List.mem_cons_self e es) (he ▸ hname)
          rw [prepare_aux_skip defs es _ out h k
            (fun e2 he2 => hk e2 (List.mem_cons_of_mem e he2)),
            objGet_objSet_ne _ _ _ _ (fun he => hkname he.symm)]

theorem prepare_aux_peel (defs : List CustomFieldDef) :
    ∀ (es1 rest : List JsVal) (acc out : Obj),
    prepareCustomFieldsAux defs acc (es1 ++ rest) = Except.ok out →
    ∃ acc2, prepareCustomFieldsAux defs acc2 rest = Except.ok out
  | [], _, acc, _, h => ⟨acc, h⟩
  | e :: es1, rest, acc, out, h => by
    rw [List.cons_append, prepareCustomFieldsAux] at h
    rcases hid : jsGetE e "custom_field_definition_id" with m | defId
    · rw [hid] at h
      exact Except.noConfusion h
    · rw [hid] at h
      rcases hcv : jsGetE e "computed_value" with m | cv
      · rw [hcv] at h
        exact Except.noConfusion h
      · rcases hv : jsGetE e "value" with m | v
        · rw [hcv, hv] at h
          exact Except.noConfusion h
        · rw [hcv, hv] at h
          exact prepare_aux_peel defs es1 rest _ out h

/-- C3 counterexample: a custom-field entry whose definition is found and
which has both a raw value ("raw") and a computed value (the boolean false,
a set Checkbox value) set maps the definition name to the raw value, not to
the computed value, because the source chooses with JS truthiness
(computed_value || value) and false is falsy. -/
theorem C3_counterexample_falsy_computed_value :
    prepareCustomFieldsOnRecord [⟨"cf1", "Field"⟩]
      [JsVal.obj [("custom_field_definition_id", JsVal.str "cf1"),
                  ("value", JsVal.str "raw"),
                  ("computed_value", JsVal.bool false)]] =
      Except.ok [("Field", JsVal.str "raw")] ∧
    objGet [("Field", JsVal.str "raw")] "Field" = JsVal.str "raw" ∧
    JsVal.str "raw" ≠ JsVal.bool false :=
  ⟨rfl, rfl, fun h => JsVal.noConfusion h⟩

/-- C3 amended: when the definition id of an entry is found and the entry
has a truthy computed value, the prepared output maps the definition name to
the computed value (the precedence holds whenever the computed value is
truthy; a falsy computed value, such as false, 0 or the empty string, falls
back to the raw value). The entry must not be overwritten by a later entry
mapping to the same name. -/
theorem C3_computed_value_precedence (defs : List CustomFieldDef)
    (es1 es2 : List JsVal) (flds : Obj) (d : CustomFieldDef) (out : Obj)
    (hrun : prepareCustomFieldsOnRecord defs
      (es1 ++ JsVal.obj flds :: es2) = Except.ok out)
    (hd : defs.find? (fun dd =>
      jsStrictEqStr dd.id (objGet flds "custom_field_definition_id")) =
      some d)
    (hcv : jsTruthy (objGet flds "computed_value") = true)
    (hlast : ∀ e ∈ es2, entryName defs e ≠ some d.name) :
    objGet out d.name = objGet flds "computed_value" := by
  unfold prepareCustomFieldsOnRecord at hrun
  obtain ⟨acc2, h2⟩ := prepare_aux_peel defs es1 _ [] out hrun
  rw [prepareCustomFieldsAux] at h2
  dsimp only [jsGetE] at h2
  rw [hd] at h2
  rw [if_pos hcv] at h2
  rw [prepare_aux_skip defs es2 _ out h2 d.name hlast, objGet_objSet_self]

/-- C3 witness: a single entry with computed value "c" and raw value "v"
maps its definition name to "c". -/
theorem C3_computed_value_precedence_witness :
    objGet [("Field", JsVal.str "c")] "Field" =
      objGet [("custom_field_definition_id", JsVal.str "cf1"),
              ("value", JsVal.str "v"),
              ("computed_value", JsVal.str "c")] "computed_value" :=
  C3_computed_value_precedence [⟨"cf1", "Field"⟩] [] []
    [("custom_field_definition_id", JsVal.str "cf1"),
     ("value", JsVal.str "v"),
     ("computed_value", JsVal.str "c")]
    ⟨"cf1", "Field"⟩ [("Field", JsVal.str "c")] rfl rfl rfl
    (fun e he => absurd he (List.not_mem_nil e))

/-! ## Pagination lemmas -/

theorem mapExcept_length {α β ε : Type} (f : α → Except ε β) :
    ∀ (l : List α) (out : List β), mapExcept f l = Except.ok out →
    out.length = l.length
  | [], _, h => by
    cases Except.ok.inj h
    rfl
  | a :: as, out, h => by
    rw [mapExcept] at h
    rcases hfa : f a with m | b
    · rw [hfa] at h
      exact Except.noConfusion h
    · rw [hfa] at h
      rcases hrest : mapExcept f as with m | bs
      · rw [hrest] at h
        exact Except.noConfusion h
      · rw [hrest] at h
        cases Except.ok.inj h
        simp [mapExcept_length f as bs hrest]

/-- C1: in the current (formulas.ts) revision, each sync function emits the
continuation for page n+1 exactly when the page of records was full: a page
shorter than PAGE_SIZE (zero included) yields a continuation value with no
pageNumber (the empty object for opportunities, undefined for companies and
people), and a page of exactly PAGE_SIZE yields the pageNumber of the next
page. In the older helpers.ts revision, the check is the assignment
`opportunities.length = PAGE_SIZE`, which is always truthy, so even a page
of zero records pads the result to 50 holes and still emits a continuation
for page 2 — the claimed termination policy fails on that revision. -/
theorem C1_pagination_termination (cont : JsVal)
    (recsO recsC recsP : List Obj) (acct : String)
    (users : List CopperUser) (pipelines : List Pipeline)
    (srcs reasons contactTypes : List IdName) (defs : List CustomFieldDef)
    (enrO enrC enrP : List Obj)
    (hO : mapExcept (fun opportunity => enrichOpportunityResponse opportunity
      acct users pipelines srcs reasons (some defs) true) recsO =
      Except.ok enrO)
    (hC : mapExcept (fun company => enrichCompanyResponse company acct users
      (some defs)) recsC = Except.ok enrC)
    (hP : mapExcept (fun person => enrichPersonResponse person acct users
      contactTypes (some defs)) recsP = Except.ok enrP) :
    (recsO.length < PAGE_SIZE →
      syncOpportunities cont recsO acct users pipelines srcs reasons defs =
        Except.ok (enrO, JsVal.obj [])) ∧
    (recsO.length = PAGE_SIZE →
      syncOpportunities cont recsO acct users pipelines srcs reasons defs =
        Except.ok (enrO,
          JsVal.obj [("pageNumber", JsVal.num (jsPageNumber cont + 1))])) ∧
    (recsC.length < PAGE_SIZE →
      syncCompanies cont recsC acct users defs =
        Except.ok (enrC, JsVal.undef)) ∧
    (recsC.length = PAGE_SIZE →
      syncCompanies cont recsC acct users defs =
        Except.ok (enrC,
          JsVal.obj [("pageNumber", JsVal.num (jsPageNumber cont + 1))])) ∧
    (recsP.length < PAGE_SIZE →
      syncPeople cont recsP acct users contactTypes defs =
        Except.ok (enrP, JsVal.undef)) ∧
    (recsP.length = PAGE_SIZE →
      syncPeople cont recsP acct users contactTypes defs =
        Except.ok (enrP,
          JsVal.obj [("pageNumber", JsVal.num (jsPageNumber cont + 1))])) ∧
    jsGetOpt (JsVal.obj []) "pageNumber" = JsVal.undef ∧
    syncOpportunitiesV2 JsVal.undef [] acct users pipelines srcs reasons =
      Except.ok (List.replicate PAGE_SIZE JsVal.undef,
        JsVal.obj [("pageNumber", JsVal.num 2)]) := by
  have hlO := mapExcept_length _ recsO enrO hO
  have hlC := mapExcept_length _ recsC enrC hC
  have hlP := mapExcept_length _ recsP enrP hP
  refine ⟨?_, ?_, ?_, ?_, ?_, ?_, rfl, ?_⟩
  · intro hshort
    unfold syncOpportunities
    rw [hO]
    show Except.ok (enrO, _) = _
    rw [if_neg (by omega)]
  · intro hfull
    unfold syncOpportunities
    rw [hO]
    show Except.ok (enrO, _) = _
    rw [if_pos (by omega)]
  · intro hshort
    unfold syncCompanies
    rw [hC]
    show Except.ok (enrC, _) = _
    rw [if_neg (by omega)]
  · intro hfull
    unfold syncCompanies
    rw [hC]
    show Except.ok (enrC, _) = _
    rw [if_pos (by omega)]
  · intro hshort
    unfold syncPeople
    rw [hP]
    show Except.ok (enrP, _) = _
    rw [if_neg (by omega)]
  · intro hfull
    unfold syncPeople
    rw [hP]
    show Except.ok (enrP, _) = _
    rw [if_pos (by omega)]
  · rfl

/-- C1 witness: a zero-record page. The formulas.ts variants emit no
pageNumber; the helpers.ts variant still emits page 2 and pads the result
with 50 undefined holes. -/
theorem C1_pagination_termination_witness :
    syncOpportunities JsVal.undef [] "1" [] [] [] [] [] =
      Except.ok ([], JsVal.obj []) ∧
    syncCompanies JsVal.undef [] "1" [] [] =
      Except.ok ([], JsVal.undef) ∧
    syncPeople JsVal.undef [] "1" [] [] [] =
      Except.ok ([], JsVal.undef) ∧
    syncOpportunitiesV2 JsVal.undef [] "1" [] [] [] [] =
      Except.ok (List.replicate PAGE_SIZE JsVal.undef,
        JsVal.obj [("pageNumber", JsVal.num 2)]) :=
  have h := C1_pagination_termination JsVal.undef [] [] [] "1" [] [] [] [] []
    [] [] [] [] rfl rfl rfl
  ⟨h.1 (by decide), h.2.2.1 (by decide), h.2.2.2.2.1 (by decide),
    h.2.2.2.2.2.2.2⟩

/-! ## Enrichment-step lemmas -/

theorem customFieldsStep_falsy (o : Obj) (cds : Option (List CustomFieldDef))
    (init : Option Obj) (h : jsTruthy (objGet o "custom_fields") = false) :
    customFieldsStep o cds init = Except.ok (o, init) := by
  unfold customFieldsStep
  cases cds with
  | none => rfl
  | some defs =>
    dsimp only
    rw [if_neg (by rw [h]; exact Bool.false_ne_true)]

theorem customFieldsStep_arr (o : Obj) (defs : List CustomFieldDef)
    (init : Option Obj) (entries : List JsVal) (fields : Obj)
    (hcf : objGet o "custom_fields" = JsVal.arr entries)
    (hprep : prepareCustomFieldsOnRecord defs entries = Except.ok fields) :
    customFieldsStep o (some defs) init =
      Except.ok (objAssign o fields, some fields) := by
  unfold customFieldsStep
  dsimp only
  rw [hcf, if_pos (show jsTruthy (JsVal.arr entries) = true from rfl)]
  dsimp only
  rw [hprep]
  rfl

theorem objGet_referenceStubsStep_ne (o : Obj) (wref : Bool) (k : String)
    (h1 : k ≠ "company") (h2 : k ≠ "primaryContact") :
    objGet (referenceStubsStep o wref) k = objGet o k := by
  unfold referenceStubsStep
  dsimp only
  split_ifs
  · rw [objGet_objSet_ne _ _ _ _ h2, objGet_objSet_ne _ _ _ _ h1]
  · rw [objGet_objSet_ne _ _ _ _ h1]
  · rw [objGet_objSet_ne _ _ _ _ h2]
  · rfl
  · rfl

theorem nodup_referenceStubsStep (o : Obj) (wref : Bool)
    (h : (o.map Prod.fst).Nodup) :
    ((referenceStubsStep o wref).map Prod.fst).Nodup := by
  unfold referenceStubsStep
  dsimp only
  split_ifs
  · exact nodup_objSet _ _ _ (nodup_objSet _ _ _ h)
  · exact nodup_objSet _ _ _ h
  · exact nodup_objSet _ _ _ h
  · exact h
  · exact h

theorem enrichOpportunityBase_get (record : Obj) (acct : String)
    (users : List CopperUser) (pipelines : List Pipeline)
    (srcs reasons : List IdName) (k : String)
    (h1 : k ≠ "url") (h2 : k ≠ "assignee") (h3 : k ≠ "pipeline")
    (h4 : k ≠ "pipelineStage") (h5 : k ≠ "customerSource")
    (h6 : k ≠ "lossReason") :
    objGet (enrichOpportunityBase record acct users pipelines srcs reasons) k
      = objGet record k := by
  unfold enrichOpportunityBase
  rw [objGet_objSet_ne _ _ _ _ h6, objGet_objSet_ne _ _ _ _ h5,
    objGet_objSet_ne _ _ _ _ h4, objGet_objSet_ne _ _ _ _ h3,
    objGet_objSet_ne _ _ _ _ h2, objGet_objSet_ne _ _ _ _ h1]

theorem nodup_enrichOpportunityBase (record : Obj) (acct : String)
    (users : List CopperUser) (pipelines : List Pipeline)
    (srcs reasons : List IdName) (h : (record.map Prod.fst).Nodup) :
    ((enrichOpportunityBase record acct users pipelines srcs
      reasons).map Prod.fst).Nodup := by
  unfold enrichOpportunityBase
  exact nodup_objSet _ _ _ (nodup_objSet _ _ _ (nodup_objSet _ _ _
    (nodup_objSet _ _ _ (nodup_objSet _ _ _ (nodup_objSet _ _ _ h)))))

theorem enrichPersonPre_get (person : Obj) (acct : String) (k : String)
    (h1 : k ≠ "fullAddress") (h2 : k ≠ "url") :
    objGet (enrichPersonPre person acct) k = objGet person k := by
  unfold enrichPersonPre
  rw [objGet_objSet_ne _ _ _ _ h2, objGet_objSet_ne _ _ _ _ h1]

theorem enrichPersonPost_get (o : Obj) (users : List CopperUser)
    (cts : List IdName) (k : String) (h1 : k ≠ "company")
    (h2 : k ≠ "assignee") (h3 : k ≠ "contactType") :
    objGet (enrichPersonPost o users cts) k = objGet o k := by
  unfold enrichPersonPost
  dsimp only
  split_ifs
  · rw [objGet_objSet_ne _ _ _ _ h3, objGet_objSet_ne _ _ _ _ h2,
      objGet_objSet_ne _ _ _ _ h1]
  · rw [objGet_objSet_ne _ _ _ _ h3, objGet_objSet_ne _ _ _ _ h2]

theorem nodup_enrichPersonPost (o : Obj) (users : List CopperUser)
    (cts : List IdName) (h : (o.map Prod.fst).Nodup) :
    ((enrichPersonPost o users cts).map Prod.fst).Nodup := by
  unfold enrichPersonPost
  dsimp only
  split_ifs
  · exact nodup_objSet _ _ _ (nodup_objSet _ _ _ (nodup_objSet _ _ _ h))
  · exact nodup_objSet _ _ _ (nodup_objSet _ _ _ h)

theorem enrichCompanyBase_get (company : Obj) (acct : String)
    (users : List CopperUser) (k : String) (h1 : k ≠ "url")
    (h2 : k ≠ "fullAddress") (h3 : k ≠ "assignee") :
    objGet (enrichCompanyBase company acct users) k = objGet company k := by
  unfold enrichCompanyBase
  rw [objGet_objSet_ne _ _ _ _ h3, objGet_objSet_ne _ _ _ _ h2,
    objGet_objSet_ne _ _ _ _ h1]

theorem nodup_enrichCompanyBase (company : Obj) (acct : String)
    (users : List CopperUser) (h : (company.map Prod.fst).Nodup) :
    ((enrichCompanyBase company acct users).map Prod.fst).Nodup := by
  unfold enrichCompanyBase
  exact nodup_objSet _ _ _ (nodup_objSet _ _ _ (nodup_objSet _ _ _ h))

theorem enrichPersonBase_eq (person : Obj) (acct : String)
    (users : List CopperUser) (cts : List IdName) (pes : List JsVal)
    (hpem : objGet person "emails" = JsVal.arr pes) :
    enrichPersonBase person acct users cts = Except.ok
      (enrichPersonPost (objSet (enrichPersonPre person acct) "primaryEmail"
        (personPrimaryEmailVal pes)) users cts) := by
  unfold enrichPersonBase
  dsimp only
  rw [show objGet (enrichPersonPre person acct) "emails" = JsVal.arr pes from
    by rw [enrichPersonPre_get _ _ _ (by decide) (by decide), hpem]]
  rfl

theorem enrichOpportunity_ok (record : Obj) (acct : String)
    (users : List CopperUser) (pipelines : List Pipeline)
    (srcs reasons : List IdName) (defs : List CustomFieldDef) (wref : Bool)
    (entries : List JsVal) (fields : Obj)
    (hcf : objGet record "custom_fields" = JsVal.arr entries)
    (hprep : prepareCustomFieldsOnRecord defs entries = Except.ok fields) :
    enrichOpportunityResponse record acct users pipelines srcs reasons
      (some defs) wref =
      Except.ok (pruneObjectToSchema (referenceStubsStep
        (objAssign (enrichOpportunityBase record acct users pipelines srcs
          reasons) fields) wref)
        opportunitySchemaKeys (objKeys fields)) := by
  unfold enrichOpportunityResponse
  dsimp only
  rw [customFieldsStep_arr _ defs none entries fields
    (by rw [enrichOpportunityBase_get record acct users pipelines srcs
      reasons "custom_fields" (by decide) (by decide) (by decide) (by decide)
      (by decide) (by decide), hcf]) hprep]

theorem enrichPerson_ok (person : Obj) (acct : String)
    (users : List CopperUser) (cts : List IdName)
    (defs : List CustomFieldDef) (pes entries : List JsVal) (fields : Obj)
    (hpem : objGet person "emails" = JsVal.arr pes)
    (hcf : objGet person "custom_fields" = JsVal.arr entries)
    (hprep : prepareCustomFieldsOnRecord defs entries = Except.ok fields) :
    enrichPersonResponse person acct users cts (some defs) =
      Except.ok (pruneObjectToSchema (objAssign
        (enrichPersonPost (objSet (enrichPersonPre person acct)
          "primaryEmail" (personPrimaryEmailVal pes)) users cts) fields)
        personSchemaKeys (objKeys fields)) := by
  unfold enrichPersonResponse
  rw [enrichPersonBase_eq person acct users cts pes hpem]
  dsimp only
  rw [customFieldsStep_arr _ defs (some []) entries fields
    (by rw [enrichPersonPost_get _ _ _ _ (by decide) (by decide) (by decide),
      objGet_objSet_ne _ _ _ _ (by decide),
      enrichPersonPre_get _ _ _ (by decide) (by decide), hcf]) hprep]

theorem enrichCompany_ok (company : Obj) (acct : String)
    (users : List CopperUser) (defs : List CustomFieldDef)
    (entries : List JsVal) (fields : Obj)
    (hcf : objGet company "custom_fields" = JsVal.arr entries)
    (hprep : prepareCustomFieldsOnRecord defs entries = Except.ok fields) :
    enrichCompanyResponse company acct users (some defs) =
      Except.ok (pruneObjectToSchema
        (objAssign (enrichCompanyBase company acct users) fields)
        companySchemaKeys (objKeys fields)) := by
  unfold enrichCompanyResponse
  dsimp only
  rw [customFieldsStep_arr _ defs (some []) entries fields
    (by rw [enrichCompanyBase_get company acct users "custom_fields"
      (by decide) (by decide) (by decide), hcf]) hprep]

/-- C10: with custom field definitions supplied but no truthy custom_fields
property on the opportunity (in particular no custom_fields array at all),
or with the definitions argument omitted, the current
enrichOpportunityResponse throws the TypeError of
Object.keys(undefined), because its local customFields is declared without
an initializer; under the same conditions the person and company variants,
which initialize customFields to an empty object, return the enriched,
pruned record normally. -/
theorem C10_opportunity_enrichment_typeerror_on_missing_custom_fields
    (record person company : Obj) (acct : String) (users : List CopperUser)
    (pipelines : List Pipeline) (srcs reasons cts : List IdName)
    (defs : List CustomFieldDef) (wref : Bool) (pes : List JsVal)
    (hcf : jsTruthy (objGet record "custom_fields") = false)
    (hccf : jsTruthy (objGet company "custom_fields") = false)
    (hpcf : jsTruthy (objGet person "custom_fields") = false)
    (hpem : objGet person "emails" = JsVal.arr pes) :
    enrichOpportunityResponse record acct users pipelines srcs reasons
      (some defs) wref =
      Except.error "TypeError: cannot convert undefined or null to object" ∧
    (∀ (r2 : Obj) (w2 : Bool),
      enrichOpportunityResponse r2 acct users pipelines srcs reasons none w2 =
        Except.error
          "TypeError: cannot convert undefined or null to object") ∧
    enrichCompanyResponse company acct users (some defs) =
      Except.ok (pruneObjectToSchema (enrichCompanyBase company acct users)
        companySchemaKeys []) ∧
    enrichPersonResponse person acct users cts (some defs) =
      Except.ok (pruneObjectToSchema
        (enrichPersonPost (objSet (enrichPersonPre person acct)
          "primaryEmail" (personPrimaryEmailVal pes)) users cts)
        personSchemaKeys []) := by
  refine ⟨?_, fun r2 w2 => rfl, ?_, ?_⟩
  · unfold enrichOpportunityResponse
    dsimp only
    rw [customFieldsStep_falsy _ _ _
      (by rw [enrichOpportunityBase_get record acct users pipelines srcs
        reasons "custom_fields" (by decide) (by decide) (by decide)
        (by decide) (by decide) (by decide)]; exact hcf)]
  · unfold enrichCompanyResponse
    dsimp only
    rw [customFieldsStep_falsy _ _ _
      (by rw [enrichCompanyBase_get company acct users "custom_fields"
        (by decide) (by decide) (by decide)]; exact hccf)]
    rfl
  · unfold enrichPersonResponse
    rw [enrichPersonBase_eq person acct users cts pes hpem]
    dsimp only
    rw [customFieldsStep_falsy _ _ _
      (by rw [enrichPersonPost_get _ _ _ _ (by decide) (by decide)
        (by decide), objGet_objSet_ne _ _ _ _ (by decide),
        enrichPersonPre_get _ _ _ (by decide) (by decide)]; exact hpcf)]
    rfl

/-- C10 witness: an opportunity carrying only an id (no custom_fields array)
fails with the TypeError, while a person and a company of the same shape
enrich normally. -/
theorem C10_opportunity_enrichment_typeerror_witness :
    enrichOpportunityResponse [("id", JsVal.str "99999")] "1" [] [] [] []
      (some []) true =
      Except.error "TypeError: cannot convert undefined or null to object" ∧
    enrichCompanyResponse [("id", JsVal.str "99999")] "1" [] (some []) =
      Except.ok (pruneObjectToSchema
        (enrichCompanyBase [("id", JsVal.str "99999")] "1" [])
        companySchemaKeys []) ∧
    enrichPersonResponse [("emails", JsVal.arr [])] "1" [] [] (some []) =
      Except.ok (pruneObjectToSchema
        (enrichPersonPost (objSet
          (enrichPersonPre [("emails", JsVal.arr [])] "1")
          "primaryEmail" (personPrimaryEmailVal [])) [] [])
        personSchemaKeys []) :=
  have h := C10_opportunity_enrichment_typeerror_on_missing_custom_fields
    [("id", JsVal.str "99999")] [("emails", JsVal.arr [])]
    [("id", JsVal.str "99999")] "1" [] [] [] [] [] [] true [] rfl rfl rfl rfl
  ⟨h.1, h.2.2.1, h.2.2.2⟩

/-! ## Lookup-miss lemmas -/

theorem objGet_ite_objSet_ne (c : Prop) [Decidable c] (o : Obj)
    (k k2 : String) (v : JsVal) (h : k2 ≠ k) :
    objGet (if c then objSet o k v else o) k2 = objGet o k2 := by
  split_ifs with hc
  · exact objGet_objSet_ne _ _ _ _ h
  · rfl

theorem enrichOpportunityBase_misses (record : Obj) (acct : String)
    (users : List CopperUser) (pipelines : List Pipeline)
    (srcs reasons : List IdName)
    (hA : users.find? (fun user =>
      jsEqStr user.id (objGet record "assignee_id")) = none)
    (hPi : pipelines.find? (fun p =>
      jsEqStr p.id (objGet record "pipeline_id")) = none)
    (hS : srcs.find? (fun source =>
      jsEqStr source.id (objGet record "customer_source_id")) = none)
    (hR : reasons.find? (fun reason =>
      jsEqStr reason.id (objGet record "loss_reason_id")) = none) :
    objGet (enrichOpportunityBase record acct users pipelines srcs reasons)
      "pipeline" = JsVal.undef ∧
    objGet (enrichOpportunityBase record acct users pipelines srcs reasons)
      "pipelineStage" = JsVal.undef ∧
    objGet (enrichOpportunityBase record acct users pipelines srcs reasons)
      "customerSource" = JsVal.undef ∧
    objGet (enrichOpportunityBase record acct users pipelines srcs reasons)
      "lossReason" = JsVal.undef ∧
    objGet (enrichOpportunityBase record acct users pipelines srcs reasons)
      "assignee" = JsVal.obj
        [("copperUserId", objGet record "assignee_id"),
         ("email", JsVal.undef), ("name", JsVal.undef)] := by
  refine ⟨?_, ?_, ?_, ?_, ?_⟩ <;> unfold enrichOpportunityBase
  · rw [objGet_objSet_ne _ "lossReason" "pipeline" _ (by decide),
      objGet_objSet_ne _ "customerSource" "pipeline" _ (by decide),
      objGet_objSet_ne _ "pipelineStage" "pipeline" _ (by decide),
      objGet_objSet_self,
      objGet_objSet_ne _ "assignee" "pipeline_id" _ (by decide),
      objGet_objSet_ne _ "url" "pipeline_id" _ (by decide), hPi]
  · rw [objGet_objSet_ne _ "lossReason" "pipelineStage" _ (by decide),
      objGet_objSet_ne _ "customerSource" "pipelineStage" _ (by decide),
      objGet_objSet_self,
      objGet_objSet_ne _ "assignee" "pipeline_id" _ (by decide),
      objGet_objSet_ne _ "url" "pipeline_id" _ (by decide), hPi]
  · rw [objGet_objSet_ne _ "lossReason" "customerSource" _ (by decide),
      objGet_objSet_self,
      objGet_objSet_ne _ "pipelineStage" "customer_source_id" _ (by decide),
      objGet_objSet_ne _ "pipeline" "customer_source_id" _ (by decide),
      objGet_objSet_ne _ "assignee" "customer_source_id" _ (by decide),
      objGet_objSet_ne _ "url" "customer_source_id" _ (by decide)]
    unfold lookupIdName
    rw [hS]
  · rw [objGet_objSet_self,
      objGet_objSet_ne _ "customerSource" "loss_reason_id" _ (by decide),
      objGet_objSet_ne _ "pipelineStage" "loss_reason_id" _ (by decide),
      objGet_objSet_ne _ "pipeline" "loss_reason_id" _ (by decide),
      objGet_objSet_ne _ "assignee" "loss_reason_id" _ (by decide),
      objGet_objSet_ne _ "url" "loss_reason_id" _ (by decide)]
    unfold lookupIdName
    rw [hR]
  · rw [objGet_objSet_ne _ "lossReason" "assignee" _ (by decide),
      objGet_objSet_ne _ "customerSource" "assignee" _ (by decide),
      objGet_objSet_ne _ "pipelineStage" "assignee" _ (by decide),
      objGet_objSet_ne _ "pipeline" "assignee" _ (by decide),
      objGet_objSet_self,
      objGet_objSet_ne _ "url" "assignee_id" _ (by decide), hA]
    unfold mkAssignee
    rw [objGet_objSet_ne _ "url" "assignee_id" _ (by decide)]

theorem enrichOpportunityBase_stage_miss (record : Obj) (acct : String)
    (users : List CopperUser) (pipelines : List Pipeline)
    (srcs reasons : List IdName) (p2 : Pipeline)
    (hPi : pipelines.find? (fun p =>
      jsEqStr p.id (objGet record "pipeline_id")) = some p2)
    (hSt : p2.stages.find? (fun stage =>
      jsEqStr stage.id (objGet record "pipeline_stage_id")) = none) :
    objGet (enrichOpportunityBase record acct users pipelines srcs reasons)
      "pipelineStage" = JsVal.undef ∧
    objGet (enrichOpportunityBase record acct users pipelines srcs reasons)
      "pipeline" = JsVal.str p2.name := by
  constructor <;> unfold enrichOpportunityBase
  · rw [objGet_objSet_ne _ "lossReason" "pipelineStage" _ (by decide),
      objGet_objSet_ne _ "customerSource" "pipelineStage" _ (by decide),
      objGet_objSet_self,
      objGet_objSet_ne _ "assignee" "pipeline_id" _ (by decide),
      objGet_objSet_ne _ "url" "pipeline_id" _ (by decide), hPi,
      objGet_objSet_ne _ "pipeline" "pipeline_stage_id" _ (by decide),
      objGet_objSet_ne _ "assignee" "pipeline_stage_id" _ (by decide),
      objGet_objSet_ne _ "url" "pipeline_stage_id" _ (by decide)]
    dsimp only
    rw [hSt]
  · rw [objGet_objSet_ne _ "lossReason" "pipeline" _ (by decide),
      objGet_objSet_ne _ "customerSource" "pipeline" _ (by decide),
      objGet_objSet_ne _ "pipelineStage" "pipeline" _ (by decide),
      objGet_objSet_self,
      objGet_objSet_ne _ "assignee" "pipeline_id" _ (by decide),
      objGet_objSet_ne _ "url" "pipeline_id" _ (by decide), hPi]

theorem enrichPersonPost_misses (o : Obj) (users : List CopperUser)
    (cts : List IdName)
    (hA : users.find? (fun user =>
      jsEqStr user.id (objGet o "assignee_id")) = none)
    (hCT : cts.find? (fun contactType =>
      jsEqStr contactType.id (objGet o "contact_type_id")) = none) :
    objGet (enrichPersonPost o users cts) "contactType" = JsVal.undef ∧
    objGet (enrichPersonPost o users cts) "assignee" = JsVal.obj
      [("copperUserId", objGet o "assignee_id"),
       ("email", JsVal.undef), ("name", JsVal.undef)] := by
  constructor <;> unfold enrichPersonPost <;> dsimp only
  · rw [objGet_objSet_self,
      objGet_objSet_ne _ "assignee" "contact_type_id" _ (by decide),
      objGet_ite_objSet_ne _ _ "company" "contact_type_id" _ (by decide)]
    unfold lookupIdName
    rw [hCT]
  · rw [objGet_objSet_ne _ "contactType" "assignee" _ (by decide),
      objGet_objSet_self,
      objGet_ite_objSet_ne _ _ "company" "assignee_id" _ (by decide), hA]
    unfold mkAssignee
    rw [objGet_ite_objSet_ne _ _ "company" "assignee_id" _ (by decide)]

theorem enrichCompanyBase_miss (company : Obj) (acct : String)
    (users : List CopperUser)
    (hA : users.find? (fun user =>
      jsEqStr user.id (objGet company "assignee_id")) = none) :
    objGet (enrichCompanyBase company acct users) "assignee" = JsVal.obj
      [("copperUserId", objGet company "assignee_id"),
       ("email", JsVal.undef), ("name", JsVal.undef)] := by
  unfold enrichCompanyBase
  rw [objGet_objSet_self,
    objGet_objSet_ne _ "fullAddress" "assignee_id" _ (by decide),
    objGet_objSet_ne _ "url" "assignee_id" _ (by decide), hA]
  unfold mkAssignee
  rw [objGet_objSet_ne _ "fullAddress" "assignee_id" _ (by decide),
    objGet_objSet_ne _ "url" "assignee_id" _ (by decide)]

theorem nodup_enrichPersonPre (person : Obj) (acct : String)
    (h : (person.map Prod.fst).Nodup) :
    ((enrichPersonPre person acct).map Prod.fst).Nodup := by
  unfold enrichPersonPre
  exact nodup_objSet _ _ _ (nodup_objSet _ _ _ h)

theorem objGet_pruned (o : Obj) (sk : List String) (k : String)
    (hnd : (o.map Prod.fst).Nodup) (hk : (sk ++ []).contains k = true) :
    objGet (pruneObjectToSchema o sk []) k = objGet o k := by
  rw [prune_eq_filter _ _ _ hnd, objGet_filter, if_pos hk]

/-- C2: the first helpers.ts revision of enrichOpportunityResponse reads
`pipeline.stages` without optional chaining, so a record whose pipeline id
matches no pipeline makes the enrichment throw a TypeError instead of
returning normally — the claim fails on that revision (the current revision
guards the read). On the current revision, enrichment of a well-formed
record returns normally under every foreign-key lookup miss, with the
corresponding output field undefined: unknown assignee, pipeline, customer
source and loss reason ids on an opportunity; an unknown pipeline-stage id
with a known pipeline; unknown assignee and contact-type ids on a person;
an unknown assignee id on a company. -/
theorem C2_enrichment_lookup_misses (record record2 person company : Obj)
    (acct : String) (users : List CopperUser)
    (pipelines pipelines2 : List Pipeline) (srcs reasons cts : List IdName)
    (defs : List CustomFieldDef) (wref wref2 : Bool) (p2 : Pipeline)
    (hnd : (record.map Prod.fst).Nodup)
    (hcf : objGet record "custom_fields" = JsVal.arr [])
    (hA : users.find? (fun user =>
      jsEqStr user.id (objGet record "assignee_id")) = none)
    (hPi : pipelines.find? (fun p =>
      jsEqStr p.id (objGet record "pipeline_id")) = none)
    (hS : srcs.find? (fun source =>
      jsEqStr source.id (objGet record "customer_source_id")) = none)
    (hR : reasons.find? (fun reason =>
      jsEqStr reason.id (objGet record "loss_reason_id")) = none)
    (hnd2 : (record2.map Prod.fst).Nodup)
    (hcf2 : objGet record2 "custom_fields" = JsVal.arr [])
    (hPi2 : pipelines2.find? (fun p =>
      jsEqStr p.id (objGet record2 "pipeline_id")) = some p2)
    (hSt : p2.stages.find? (fun stage =>
      jsEqStr stage.id (objGet record2 "pipeline_stage_id")) = none)
    (hndp : (person.map Prod.fst).Nodup)
    (hpem : objGet person "emails" = JsVal.arr [])
    (hpcf : objGet person "custom_fields" = JsVal.arr [])
    (hAp : users.find? (fun user =>
      jsEqStr user.id (objGet person "assignee_id")) = none)
    (hCT : cts.find? (fun contactType =>
      jsEqStr contactType.id (objGet person "contact_type_id")) = none)
    (hndc : (company.map Prod.fst).Nodup)
    (hccf : objGet company "custom_fields" = JsVal.arr [])
    (hAc : users.find? (fun user =>
      jsEqStr user.id (objGet company "assignee_id")) = none) :
    enrichOpportunityResponseV1
      [("id", JsVal.str "99999"), ("pipeline_id", JsVal.str "404")]
      "1" [] [] [] [] false =
      Except.error "TypeError: cannot read properties of undefined" ∧
    (∃ out, enrichOpportunityResponse record acct users pipelines srcs
        reasons (some defs) wref = Except.ok out ∧
      objGet out "pipeline" = JsVal.undef ∧
      objGet out "pipelineStage" = JsVal.undef ∧
      objGet out "customerSource" = JsVal.undef ∧
      objGet out "lossReason" = JsVal.undef ∧
      jsGetOpt (objGet out "assignee") "email" = JsVal.undef ∧
      jsGetOpt (objGet out "assignee") "name" = JsVal.undef) ∧
    (∃ out, enrichOpportunityResponse record2 acct users pipelines2 srcs
        reasons (some defs) wref2 = Except.ok out ∧
      objGet out "pipelineStage" = JsVal.undef ∧
      objGet out "pipeline" = JsVal.str p2.name) ∧
    (∃ out, enrichPersonResponse person acct users cts (some defs) =
        Except.ok out ∧
      objGet out "contactType" = JsVal.undef ∧
      jsGetOpt (objGet out "assignee") "email" = JsVal.undef ∧
      jsGetOpt (objGet out "assignee") "name" = JsVal.undef) ∧
    (∃ out, enrichCompanyResponse company acct users (some defs) =
        Except.ok out ∧
      jsGetOpt (objGet out "assignee") "email" = JsVal.undef ∧
      jsGetOpt (objGet out "assignee") "name" = JsVal.undef) := by
  refine ⟨rfl, ?_, ?_, ?_, ?_⟩
  · obtain ⟨m1, m2, m3, m4, m5⟩ := enrichOpportunityBase_misses record acct
      users pipelines srcs reasons hA hPi hS hR
    have hok := enrichOpportunity_ok record acct users pipelines srcs reasons
      defs wref [] [] hcf rfl
    rw [objAssign_nil] at hok
    refine ⟨_, hok, ?_, ?_, ?_, ?_, ?_, ?_⟩ <;>
      rw [show objKeys ([] : Obj) = [] from rfl,
        objGet_pruned _ _ _ (nodup_referenceStubsStep _ _
          (nodup_enrichOpportunityBase _ _ _ _ _ _ hnd)) (by decide),
        objGet_referenceStubsStep_ne _ _ _ (by decide) (by decide)]
    · rw [m1]
    · rw [m2]
    · rw [m3]
    · rw [m4]
    · rw [m5]
      rfl
    · rw [m5]
      rfl
  · obtain ⟨s1, s2⟩ := enrichOpportunityBase_stage_miss record2 acct users
      pipelines2 srcs reasons p2 hPi2 hSt
    have hok := enrichOpportunity_ok record2 acct users pipelines2 srcs
      reasons defs wref2 [] [] hcf2 rfl
    rw [objAssign_nil] at hok
    refine ⟨_, hok, ?_, ?_⟩ <;>
      rw [show objKeys ([] : Obj) = [] from rfl,
        objGet_pruned _ _ _ (nodup_referenceStubsStep _ _
          (nodup_enrichOpportunityBase _ _ _ _ _ _ hnd2)) (by decide),
        objGet_referenceStubsStep_ne _ _ _ (by decide) (by decide)]
    · rw [s1]
    · rw [s2]
  · have hAp2 : users.find? (fun user => jsEqStr user.id
        (objGet (objSet (enrichPersonPre person acct) "primaryEmail"
          (personPrimaryEmailVal [])) "assignee_id")) = none := by
      rw [objGet_objSet_ne _ _ _ _ (by decide),
        enrichPersonPre_get _ _ _ (by decide) (by decide)]
      exact hAp
    have hCT2 : cts.find? (fun contactType => jsEqStr contactType.id
        (objGet (objSet (enrichPersonPre person acct) "primaryEmail"
          (personPrimaryEmailVal [])) "contact_type_id")) = none := by
      rw [objGet_objSet_ne _ _ _ _ (by decide),
        enrichPersonPre_get _ _ _ (by decide) (by decide)]
      exact hCT
    obtain ⟨pm1, pm2⟩ := enrichPersonPost_misses
      (objSet (enrichPersonPre person acct) "primaryEmail"
        (personPrimaryEmailVal [])) users cts hAp2 hCT2
    have hok := enrichPerson_ok person acct users cts defs [] [] []
      hpem hpcf rfl
    rw [objAssign_nil] at hok
    refine ⟨_, hok, ?_, ?_, ?_⟩ <;>
      rw [show objKeys ([] : Obj) = [] from rfl,
        objGet_pruned _ _ _ (nodup_enrichPersonPost _ _ _ (nodup_objSet _ _ _
          (nodup_enrichPersonPre _ _ hndp))) (by decide)]
    · rw [pm1]
    · rw [pm2]
      rfl
    · rw [pm2]
      rfl
  · have hm := enrichCompanyBase_miss company acct users hAc
    have hok := enrichCompany_ok company acct users defs [] [] hccf rfl
    rw [objAssign_nil] at hok
    refine ⟨_, hok, ?_, ?_⟩ <;>
      · rw [show objKeys ([] : Obj) = [] from rfl,
          objGet_pruned _ _ _ (nodup_enrichCompanyBase _ _ _ hndc)
            (by decide), hm]
        rfl

/-- C2 witness: empty reference datasets make every lookup miss; the current
enrichment functions return normally with undefined fields, while the first
helpers.ts revision throws on the unmatched pipeline. -/
theorem C2_enrichment_lookup_misses_witness :
    enrichOpportunityResponseV1
      [("id", JsVal.str "99999"), ("pipeline_id", JsVal.str "404")]
      "1" [] [] [] [] false =
      Except.error "TypeError: cannot read properties of undefined" ∧
    (∃ out, enrichOpportunityResponse [("custom_fields", JsVal.arr [])] "1"
        [] [] [] [] (some []) true = Except.ok out ∧
      objGet out "pipeline" = JsVal.undef ∧
      objGet out "pipelineStage" = JsVal.undef ∧
      objGet out "customerSource" = JsVal.undef ∧
      objGet out "lossReason" = JsVal.undef ∧
      jsGetOpt (objGet out "assignee") "email" = JsVal.undef ∧
      jsGetOpt (objGet out "assignee") "name" = JsVal.undef) ∧
    (∃ out, enrichOpportunityResponse
        [("pipeline_id", JsVal.str "P1"), ("custom_fields", JsVal.arr [])]
        "1" [] [⟨"P1", "Pipe", []⟩] [] [] (some []) false = Except.ok out ∧
      objGet out "pipelineStage" = JsVal.undef ∧
      objGet out "pipeline" = JsVal.str (Pipeline.mk "P1" "Pipe" []).name) ∧
    (∃ out, enrichPersonResponse
        [("emails", JsVal.arr []), ("custom_fields", JsVal.arr [])] "1" [] []
        (some []) = Except.ok out ∧
      objGet out "contactType" = JsVal.undef ∧
      jsGetOpt (objGet out "assignee") "email" = JsVal.undef ∧
      jsGetOpt (objGet out "assignee") "name" = JsVal.undef) ∧
    (∃ out, enrichCompanyResponse [("custom_fields", JsVal.arr [])] "1" []
        (some []) = Except.ok out ∧
      jsGetOpt (objGet out "assignee") "email" = JsVal.undef ∧
      jsGetOpt (objGet out "assignee") "name" = JsVal.undef) :=
  C2_enrichment_lookup_misses [("custom_fields", JsVal.arr [])]
    [("pipeline_id", JsVal.str "P1"), ("custom_fields", JsVal.arr [])]
    [("emails", JsVal.arr []), ("custom_fields", JsVal.arr [])]
    [("custom_fields", JsVal.arr [])] "1" [] [] [⟨"P1", "Pipe", []⟩] [] [] []
    [] true false ⟨"P1", "Pipe", []⟩ (by decide) rfl rfl rfl rfl rfl
    (by decide) rfl rfl rfl (by decide) rfl rfl rfl rfl (by decide) rfl rfl

/-! ## Url and determinism lemmas -/

theorem enrichOpportunityBase_url (record : Obj) (acct : String)
    (users : List CopperUser) (pipelines : List Pipeline)
    (srcs reasons : List IdName) :
    objGet (enrichOpportunityBase record acct users pipelines srcs reasons)
      "url" =
    JsVal.str (getCopperUrl acct "deal" (jsValToString (objGet record "id"))) := by
  unfold enrichOpportunityBase
  rw [objGet_objSet_ne _ "lossReason" "url" _ (by decide),
    objGet_objSet_ne _ "customerSource" "url" _ (by decide),
    objGet_objSet_ne _ "pipelineStage" "url" _ (by decide),
    objGet_objSet_ne _ "pipeline" "url" _ (by decide),
    objGet_objSet_ne _ "assignee" "url" _ (by decide),
    objGet_objSet_self]

theorem enrichPersonPre_url (person : Obj) (acct : String) :
    objGet (enrichPersonPre person acct) "url" =
    JsVal.str (getCopperUrl acct "contact"
      (jsValToString (objGet person "id"))) := by
  unfold enrichPersonPre
  rw [objGet_objSet_self, objGet_objSet_ne _ "fullAddress" "id" _ (by decide)]

theorem enrichCompanyBase_url (company : Obj) (acct : String)
    (users : List CopperUser) :
    objGet (enrichCompanyBase company acct users) "url" =
    JsVal.str (getCopperUrl acct "organization"
      (jsValToString (objGet company "id"))) := by
  unfold enrichCompanyBase
  rw [objGet_objSet_ne _ "assignee" "url" _ (by decide),
    objGet_objSet_ne _ "fullAddress" "url" _ (by decide), objGet_objSet_self]

theorem prepare_keys_sub (defs : List CustomFieldDef) :
    ∀ (es : List JsVal) (acc fields : Obj),
    prepareCustomFieldsAux defs acc es = Except.ok fields →
    ∀ k ∈ fields.map Prod.fst, k ∈ acc.map Prod.fst ∨
      k ∈ defs.map CustomFieldDef.name ∨ k = "undefined"
  | [], acc, fields, h, k, hk => by
    cases Except.ok.inj h
    exact Or.inl hk
  | e :: es, acc, fields, h, k, hk => by
    rw [prepareCustomFieldsAux] at h
    rcases hid : jsGetE e "custom_field_definition_id" with m | defId
    · rw [hid] at h
      exact Except.noConfusion h
    · rw [hid] at h
      rcases hcv : jsGetE e "computed_value" with m | cv
      · rw [hcv] at h
        exact Except.noConfusion h
      · rcases hv : jsGetE e "value" with m | v
        · rw [hcv, hv] at h
          exact Except.noConfusion h
        · rw [hcv, hv] at h
          rcases prepare_keys_sub defs es _ fields h k hk with hin | hrest
          · rw [objKeys_objSet] at hin
            by_cases hc : (acc.map Prod.fst).contains
                (match defs.find? (fun d => jsStrictEqStr d.id defId) with
                  | some d => d.name
                  | none => "undefined")
            · rw [if_pos hc] at hin
              exact Or.inl hin
            · rw [if_neg hc] at hin
              rcases List.mem_append.mp hin with hin2 | hin2
              · exact Or.inl hin2
              · simp only [List.mem_singleton] at hin2
                subst hin2
                rcases hfd : defs.find? (fun d => jsStrictEqStr d.id defId)
                  with _ | d
                · rw [hfd]
                  exact Or.inr (Or.inr rfl)
                · rw [hfd]
                  exact Or.inr (Or.inl (List.mem_map_of_mem
                    CustomFieldDef.name (List.mem_of_find?_eq_some hfd)))
          · exact Or.inr hrest

theorem prepare_no_url (defs : List CustomFieldDef) (es : List JsVal)
    (fields : Obj)
    (h : prepareCustomFieldsOnRecord defs es = Except.ok fields)
    (hname : ∀ d ∈ defs, d.name ≠ "url") :
    "url" ∉ fields.map Prod.fst := by
  intro hmem
  rcases prepare_keys_sub defs es [] fields h "url" hmem with h1 | h2 | h3
  · exact absurd h1 (List.not_mem_nil _)
  · obtain ⟨d, hd, hdn⟩ := List.mem_map.mp h2
    exact hname d hd hdn
  · exact absurd h3 (by decide)

/-- C9 counterexample: a custom-field definition named "url" makes the
Object.assign of the prepared custom fields overwrite the synthetic url; two
companies with the same id and account but different custom-field data then
carry different urls, so the url field does not depend only on the account
id, record type and record id. -/
theorem C9_counterexample_url_overwritten_by_custom_field :
    objGet (exceptObj (enrichCompanyResponse
      [("id", JsVal.str "99999"),
       ("custom_fields", JsVal.arr [JsVal.obj
         [("custom_field_definition_id", JsVal.str "d1"),
          ("value", JsVal.str "evil")]])]
      "1" [] (some [⟨"d1", "url"⟩]))) "url" = JsVal.str "evil" ∧
    objGet (exceptObj (enrichCompanyResponse
      [("id", JsVal.str "99999"), ("custom_fields", JsVal.arr [])]
      "1" [] (some [⟨"d1", "url"⟩]))) "url" =
      JsVal.str "https://app.copper.com/companies/1/app#/organization/99999" ∧
    objGet [("id", JsVal.str "99999"),
       ("custom_fields", JsVal.arr [JsVal.obj
         [("custom_field_definition_id", JsVal.str "d1"),
          ("value", JsVal.str "evil")]])] "id" =
      objGet [("id", JsVal.str "99999"),
       ("custom_fields", JsVal.arr [])] "id" ∧
    JsVal.str "evil" ≠
      JsVal.str "https://app.copper.com/companies/1/app#/organization/99999" := by
  refine ⟨rfl, rfl, rfl, ?_⟩
  intro h
  have := JsVal.str.inj h
  exact absurd this (by decide)

/-- C9 amended: every enrichment function is deterministic in its explicit
arguments (equal inputs give equal outputs, with no other dependence), and
the url field of each enriched record equals the web URL built from only the
supplied account id, the record-type token and the record id — provided no
custom-field definition is named "url", since the custom-field merge would
otherwise overwrite the synthetic url field. -/
theorem C9_enrichment_deterministic_url (record person company : Obj)
    (acct : String) (users : List CopperUser) (pipelines : List Pipeline)
    (srcs reasons cts : List IdName) (defs : List CustomFieldDef)
    (wref : Bool) (entriesO entriesP entriesC pes : List JsVal)
    (fieldsO fieldsP fieldsC : Obj)
    (hndO : (record.map Prod.fst).Nodup)
    (hcfO : objGet record "custom_fields" = JsVal.arr entriesO)
    (hprepO : prepareCustomFieldsOnRecord defs entriesO = Except.ok fieldsO)
    (hndP : (person.map Prod.fst).Nodup)
    (hpem : objGet person "emails" = JsVal.arr pes)
    (hcfP : objGet person "custom_fields" = JsVal.arr entriesP)
    (hprepP : prepareCustomFieldsOnRecord defs entriesP = Except.ok fieldsP)
    (hndC : (company.map Prod.fst).Nodup)
    (hcfC : objGet company "custom_fields" = JsVal.arr entriesC)
    (hprepC : prepareCustomFieldsOnRecord defs entriesC = Except.ok fieldsC)
    (hname : ∀ d ∈ defs, d.name ≠ "url") :
    (∀ (r2 : Obj) (a2 : String) (u2 : List CopperUser)
      (p2 : List Pipeline) (s2 r2s : List IdName)
      (d2 : Option (List CustomFieldDef)) (w2 : Bool),
      record = r2 → acct = a2 → users = u2 → pipelines = p2 → srcs = s2 →
      reasons = r2s → some defs = d2 → wref = w2 →
      enrichOpportunityResponse record acct users pipelines srcs reasons
        (some defs) wref =
      enrichOpportunityResponse r2 a2 u2 p2 s2 r2s d2 w2) ∧
    (∀ (p2 : Obj) (a2 : String) (u2 : List CopperUser) (c2 : List IdName)
      (d2 : Option (List CustomFieldDef)),
      person = p2 → acct = a2 → users = u2 → cts = c2 → some defs = d2 →
      enrichPersonResponse person acct users cts (some defs) =
      enrichPersonResponse p2 a2 u2 c2 d2) ∧
    (∀ (c2 : Obj) (a2 : String) (u2 : List CopperUser)
      (d2 : Option (List CustomFieldDef)),
      company = c2 → acct = a2 → users = u2 → some defs = d2 →
      enrichCompanyResponse company acct users (some defs) =
      enrichCompanyResponse c2 a2 u2 d2) ∧
    (∃ out, enrichOpportunityResponse record acct users pipelines srcs
        reasons (some defs) wref = Except.ok out ∧
      objGet out "url" = JsVal.str (getCopperUrl acct "deal"
        (jsValToString (objGet record "id")))) ∧
    (∃ out, enrichPersonResponse person acct users cts (some defs) =
        Except.ok out ∧
      objGet out "url" = JsVal.str (getCopperUrl acct "contact"
        (jsValToString (objGet person "id")))) ∧
    (∃ out, enrichCompanyResponse company acct users (some defs) =
        Except.ok out ∧
      objGet out "url" = JsVal.str (getCopperUrl acct "organization"
        (jsValToString (objGet company "id")))) := by
  have hcontO : (opportunitySchemaKeys ++ objKeys fieldsO).contains "url" =
      true :=
    List.elem_iff.mpr (List.mem_append_left _ (by decide))
  have hcontP : (personSchemaKeys ++ objKeys fieldsP).contains "url" = true :=
    List.elem_iff.mpr (List.mem_append_left _ (by decide))
  have hcontC : (companySchemaKeys ++ objKeys fieldsC).contains "url" =
      true :=
    List.elem_iff.mpr (List.mem_append_left _ (by decide))
  refine ⟨?_, ?_, ?_, ?_, ?_, ?_⟩
  · intro r2 a2 u2 p2 s2 r2s d2 w2 h1 h2 h3 h4 h5 h6 h7 h8
    subst h1 h2 h3 h4 h5 h6 h7 h8
    rfl
  · intro p2 a2 u2 c2 d2 h1 h2 h3 h4 h5
    subst h1 h2 h3 h4 h5
    rfl
  · intro c2 a2 u2 d2 h1 h2 h3 h4
    subst h1 h2 h3 h4
    rfl
  · refine ⟨_, enrichOpportunity_ok record acct users pipelines srcs reasons
      defs wref entriesO fieldsO hcfO hprepO, ?_⟩
    rw [prune_eq_filter _ _ _ (nodup_referenceStubsStep _ _
        (nodup_objAssign _ _ (nodup_enrichOpportunityBase _ _ _ _ _ _ hndO))),
      objGet_filter, if_pos hcontO,
      objGet_referenceStubsStep_ne _ _ _ (by decide) (by decide),
      objGet_objAssign_of_not_mem _ _ _
        (prepare_no_url defs entriesO fieldsO hprepO hname),
      enrichOpportunityBase_url]
  · refine ⟨_, enrichPerson_ok person acct users cts defs pes entriesP
      fieldsP hpem hcfP hprepP, ?_⟩
    rw [prune_eq_filter _ _ _ (nodup_objAssign _ _ (nodup_enrichPersonPost
        _ _ _ (nodup_objSet _ _ _ (nodup_enrichPersonPre _ _ hndP)))),
      objGet_filter, if_pos hcontP,
      objGet_objAssign_of_not_mem _ _ _
        (prepare_no_url defs entriesP fieldsP hprepP hname),
      enrichPersonPost_get _ _ _ _ (by decide) (by decide) (by decide),
      objGet_objSet_ne _ _ _ _ (by decide), enrichPersonPre_url]
  · refine ⟨_, enrichCompany_ok company acct users defs entriesC fieldsC
      hcfC hprepC, ?_⟩
    rw [prune_eq_filter _ _ _ (nodup_objAssign _ _
        (nodup_enrichCompanyBase _ _ _ hndC)),
      objGet_filter, if_pos hcontC,
      objGet_objAssign_of_not_mem _ _ _
        (prepare_no_url defs entriesC fieldsC hprepC hname),
      enrichCompanyBase_url]

/-- C9 witness: with no custom field named "url", the enriched urls equal
the web URLs built from the account id and the record ids. -/
theorem C9_enrichment_deterministic_url_witness :
    ∃ out, enrichCompanyResponse
        [("id", JsVal.str "99999"), ("custom_fields", JsVal.arr [])]
        "1" [] (some [⟨"d1", "Budget"⟩]) = Except.ok out ∧
      objGet out "url" = JsVal.str (getCopperUrl "1" "organization"
        (jsValToString (objGet [("id", JsVal.str "99999"),
          ("custom_fields", JsVal.arr [])] "id"))) :=
  (C9_enrichment_deterministic_url
    [("custom_fields", JsVal.arr [])]
    [("emails", JsVal.arr []), ("custom_fields", JsVal.arr [])]
    [("id", JsVal.str "99999"), ("custom_fields", JsVal.arr [])]
    "1" [] [] [] [] [] [⟨"d1", "Budget"⟩] false [] [] [] [] [] [] []
    (by decide) rfl rfl (by decide) rfl rfl rfl (by decide) rfl rfl
    (by intro d hd; simp only [List.mem_singleton] at hd; subst hd; decide)
    ).2.2.2.2.2

/-! ## C5: identifier resolution round-trips with URL generation -/

/-- A mismatching first literal character refutes a prefix match. -/
theorem stripPre_cons_ne (p : Char) (ps : List Char) (c : Char)
    (cs : List Char) (h : c ≠ p) : stripPre (p :: ps) (c :: cs) = none := by
  show (if c = p then stripPre ps cs else none) = none
  rw [if_neg h]

/-- No token alternative starts with a digit. -/
theorem tokenAt_digit (d : Char) (rest : List Char) (h : d.isDigit = true) :
    tokenAt (d :: rest) = none := by
  have h1 : d ≠ 'c' := fun he => by rw [he] at h; exact absurd h (by decide)
  have h2 : d ≠ 'd' := fun he => by rw [he] at h; exact absurd h (by decide)
  have h3 : d ≠ 'o' := fun he => by rw [he] at h; exact absurd h (by decide)
  unfold tokenAt tryTok
  rw [show ("contact".data ++ ['/']) = 'c' :: "ontact/".data from rfl,
    show ("deal".data ++ ['/']) = 'd' :: "eal/".data from rfl,
    show ("organization".data ++ ['/']) = 'o' :: "rganization/".data from rfl,
    stripPre_cons_ne 'c' _ d rest h1, stripPre_cons_ne 'd' _ d rest h2,
    stripPre_cons_ne 'o' _ d rest h3]
  rfl

/-- An all-digit tail holds no token occurrence. -/
theorem searchLastToken_digits : ∀ l : List Char,
    l.all Char.isDigit = true → searchLastToken l = none
  | [], _ => rfl
  | d :: rest, h => by
    rw [List.all_cons, Bool.and_eq_true] at h
    rw [searchLastToken, searchLastToken_digits rest h.2,
      tokenAt_digit d rest h.1]
    rfl

/-- Extending a token-free tail by a position where no token matches. -/
theorem searchLastToken_cons_none (c : Char) (rest : List Char)
    (h1 : searchLastToken rest = none) (h2 : tokenAt (c :: rest) = none) :
    searchLastToken (c :: rest) = none := by
  rw [searchLastToken, h1, h2]
  rfl

/-- takeWhile walks through a block that satisfies the predicate. -/
theorem takeWhile_append_all (p : Char → Bool) :
    ∀ l1 l2 : List Char, l1.all p = true →
      (l1 ++ l2).takeWhile p = l1 ++ l2.takeWhile p
  | [], _, _ => rfl
  | c :: cs, l2, h => by
    rw [List.all_cons, Bool.and_eq_true] at h
    rw [List.cons_append, List.takeWhile_cons p c (cs ++ l2), if_pos h.1,
      takeWhile_append_all p cs l2 h.2, List.cons_append]

/-- dropWhile walks through a block that satisfies the predicate. -/
theorem dropWhile_append_all (p : Char → Bool) :
    ∀ l1 l2 : List Char, l1.all p = true →
      (l1 ++ l2).dropWhile p = l2.dropWhile p
  | [], _, _ => rfl
  | c :: cs, l2, h => by
    rw [List.all_cons, Bool.and_eq_true] at h
    rw [List.cons_append, List.dropWhile_cons, if_pos h.1,
      dropWhile_append_all p cs l2 h.2]

/-- In the tail `deal/<digits>`, the greedy scan settles on the deal token
with the whole digit run as the id capture. -/
theorem searchLastToken_deal (idc : List Char) (h5 : 5 ≤ idc.length)
    (hdig : idc.all Char.isDigit = true) :
    searchLastToken ("deal".data ++ '/' :: idc) = some ("deal".data, idc) := by
  have ht : idc.takeWhile Char.isDigit = idc :=
    List.takeWhile_eq_self_iff.mpr (List.all_eq_true.mp hdig)
  have e0 := searchLastToken_digits idc hdig
  have e1 : searchLastToken ('/' :: idc) = none :=
    searchLastToken_cons_none '/' idc e0 rfl
  have e2 : searchLastToken ('l' :: '/' :: idc) = none :=
    searchLastToken_cons_none 'l' _ e1 rfl
  have e3 : searchLastToken ('a' :: 'l' :: '/' :: idc) = none :=
    searchLastToken_cons_none 'a' _ e2 rfl
  have e4 : searchLastToken ('e' :: 'a' :: 'l' :: '/' :: idc) = none :=
    searchLastToken_cons_none 'e' _ e3 rfl
  show searchLastToken ('d' :: 'e' :: 'a' :: 'l' :: '/' :: idc) =
    some ("deal".data, idc)
  rw [searchLastToken, e4]
  show tokenAt ('d' :: 'e' :: 'a' :: 'l' :: '/' :: idc) =
    some ("deal".data, idc)
  unfold tokenAt tryTok
  rw [show stripPre ("contact".data ++ ['/'])
      ('d' :: 'e' :: 'a' :: 'l' :: '/' :: idc) = none from rfl,
    show stripPre ("deal".data ++ ['/'])
      ('d' :: 'e' :: 'a' :: 'l' :: '/' :: idc) = some idc from rfl]
  dsimp only
  rw [ht, if_pos h5]
  rfl

/-- In the tail `contact/<digits>`, the greedy scan settles on the contact
token with the whole digit run as the id capture. -/
theorem searchLastToken_contact (idc : List Char) (h5 : 5 ≤ idc.length)
    (hdig : idc.all Char.isDigit = true) :
    searchLastToken ("contact".data ++ '/' :: idc) =
      some ("contact".data, idc) := by
  have ht : idc.takeWhile Char.isDigit = idc :=
    List.takeWhile_eq_self_iff.mpr (List.all_eq_true.mp hdig)
  have e0 := searchLastToken_digits idc hdig
  have e1 : searchLastToken ('/' :: idc) = none :=
    searchLastToken_cons_none '/' idc e0 rfl
  have e2 : searchLastToken ('t' :: '/' :: idc) = none :=
    searchLastToken_cons_none 't' _ e1 rfl
  have e3 : searchLastToken ('c' :: 't' :: '/' :: idc) = none :=
    searchLastToken_cons_none 'c' _ e2 rfl
  have e4 : searchLastToken ('a' :: 'c' :: 't' :: '/' :: idc) = none :=
    searchLastToken_cons_none 'a' _ e3 rfl
  have e5 : searchLastToken ('t' :: 'a' :: 'c' :: 't' :: '/' :: idc) = none :=
    searchLastToken_cons_none 't' _ e4 rfl
  have e6 : searchLastToken
      ('n' :: 't' :: 'a' :: 'c' :: 't' :: '/' :: idc) = none :=
    searchLastToken_cons_none 'n' _ e5 rfl
  have e7 : searchLastToken
      ('o' :: 'n' :: 't' :: 'a' :: 'c' :: 't' :: '/' :: idc) = none :=
    searchLastToken_cons_none 'o' _ e6 rfl
  show searchLastToken
      ('c' :: 'o' :: 'n' :: 't' :: 'a' :: 'c' :: 't' :: '/' :: idc) =
    some ("contact".data, idc)
  rw [searchLastToken, e7]
  show tokenAt ('c' :: 'o' :: 'n' :: 't' :: 'a' :: 'c' :: 't' :: '/' :: idc) =
    some ("contact".data, idc)
  unfold tokenAt tryTok
  rw [show stripPre ("contact".data ++ ['/'])
      ('c' :: 'o' :: 'n' :: 't' :: 'a' :: 'c' :: 't' :: '/' :: idc) =
      some idc from rfl]
  dsimp only
  rw [ht, if_pos h5]
  rfl

/-- In the tail `organization/<digits>`, the greedy scan settles on the
organization token with the whole digit run as the id capture. -/
theorem searchLastToken_organization (idc : List Char) (h5 : 5 ≤ idc.length)
    (hdig : idc.all Char.isDigit = true) :
    searchLastToken ("organization".data ++ '/' :: idc) =
      some ("organization".data, idc) := by
  have ht : idc.takeWhile Char.isDigit = idc :=
    List.takeWhile_eq_self_iff.mpr (List.all_eq_true.mp hdig)
  have e0 := searchLastToken_digits idc hdig
  have e1 : searchLastToken ('/' :: idc) = none :=
    searchLastToken_cons_none '/' idc e0 rfl
  have e2 : searchLastToken ('n' :: '/' :: idc) = none :=
    searchLastToken_cons_none 'n' _ e1 rfl
  have e3 : searchLastToken ('o' :: 'n' :: '/' :: idc) = none :=
    searchLastToken_cons_none 'o' _ e2 rfl
  have e4 : searchLastToken ('i' :: 'o' :: 'n' :: '/' :: idc) = none :=
    searchLastToken_cons_none 'i' _ e3 rfl
  have e5 : searchLastToken ('t' :: 'i' :: 'o' :: 'n' :: '/' :: idc) = none :=
    searchLastToken_cons_none 't' _ e4 rfl
  have e6 : searchLastToken
      ('a' :: 't' :: 'i' :: 'o' :: 'n' :: '/' :: idc) = none :=
    searchLastToken_cons_none 'a' _ e5 rfl
  have e7 : searchLastToken
      ('z' :: 'a' :: 't' :: 'i' :: 'o' :: 'n' :: '/' :: idc) = none :=
    searchLastToken_cons_none 'z' _ e6 rfl
  have e8 : searchLastToken
      ('i' :: 'z' :: 'a' :: 't' :: 'i' :: 'o' :: 'n' :: '/' :: idc) = none :=
    searchLastToken_cons_none 'i' _ e7 rfl
  have e9 : searchLastToken
      ('n' :: 'i' :: 'z' :: 'a' :: 't' :: 'i' :: 'o' :: 'n' :: '/' :: idc) =
      none :=
    searchLastToken_cons_none 'n' _ e8 rfl
  have e10 : searchLastToken
      ('a' :: 'n' :: 'i' :: 'z' :: 'a' :: 't' :: 'i' :: 'o' :: 'n' :: '/' ::
        idc) = none :=
    searchLastToken_cons_none 'a' _ e9 rfl
  have e11 : searchLastToken
      ('g' :: 'a' :: 'n' :: 'i' :: 'z' :: 'a' :: 't' :: 'i' :: 'o' :: 'n' ::
        '/' :: idc) = none :=
    searchLastToken_cons_none 'g' _ e10 rfl
  have e12 : searchLastToken
      ('r' :: 'g' :: 'a' :: 'n' :: 'i' :: 'z' :: 'a' :: 't' :: 'i' :: 'o' ::
        'n' :: '/' :: idc) = none :=
    searchLastToken_cons_none 'r' _ e11 rfl
  show searchLastToken
      ('o' :: 'r' :: 'g' :: 'a' :: 'n' :: 'i' :: 'z' :: 'a' :: 't' :: 'i' ::
        'o' :: 'n' :: '/' :: idc) =
    some ("organization".data, idc)
  rw [searchLastToken, e12]
  show tokenAt ('o' :: 'r' :: 'g' :: 'a' :: 'n' :: 'i' :: 'z' :: 'a' :: 't' ::
      'i' :: 'o' :: 'n' :: '/' :: idc) =
    some ("organization".data, idc)
  unfold tokenAt tryTok
  rw [show stripPre ("contact".data ++ ['/'])
      ('o' :: 'r' :: 'g' :: 'a' :: 'n' :: 'i' :: 'z' :: 'a' :: 't' :: 'i' ::
        'o' :: 'n' :: '/' :: idc) = none from rfl,
    show stripPre ("deal".data ++ ['/'])
      ('o' :: 'r' :: 'g' :: 'a' :: 'n' :: 'i' :: 'z' :: 'a' :: 't' :: 'i' ::
        'o' :: 'n' :: '/' :: idc) = none from rfl,
    show stripPre ("organization".data ++ ['/'])
      ('o' :: 'r' :: 'g' :: 'a' :: 'n' :: 'i' :: 'z' :: 'a' :: 't' :: 'i' ::
        'o' :: 'n' :: '/' :: idc) = some idc from rfl]
  dsimp only
  rw [ht, if_pos h5]
  rfl

/-- The character list of a generated Copper web URL. -/
theorem getCopperUrl_data (acct tok id : String) :
    (getCopperUrl acct tok id).data =
      'h' :: 't' :: 't' :: 'p' :: 's' :: ':' :: '/' :: '/' :: 'a' :: 'p' ::
      'p' :: '.' :: 'c' :: 'o' :: 'p' :: 'p' :: 'e' :: 'r' :: '.' :: 'c' ::
      'o' :: 'm' :: '/' :: 'c' :: 'o' :: 'm' :: 'p' :: 'a' :: 'n' :: 'i' ::
      'e' :: 's' :: '/' ::
        (acct.data ++ '/' :: 'a' :: 'p' :: 'p' :: '#' :: '/' ::
          (tok.data ++ '/' :: id.data)) := by
  unfold getCopperUrl
  simp only [String.data_append, List.append_assoc]
  rfl

/-- A generated web URL is never taken for a bare numeric id. -/
theorem copperIdTest_getCopperUrl (acct tok id : String) :
    copperIdTest (getCopperUrl acct tok id) = false := by
  unfold copperIdTest
  rw [getCopperUrl_data, List.all_cons]
  rw [show ('h'.isDigit) = false from by decide, Bool.false_and, Bool.and_false]

/-- The anchored pattern matches at the `/app.copper.com/...` position: the
account digit run is consumed exactly and the token scan continues in the
part after `/app#/`. -/
theorem matchRecordUrlAt_companies (acctc u : List Char) (hne : acctc ≠ [])
    (hdig : acctc.all Char.isDigit = true) :
    matchRecordUrlAt ('/' :: 'a' :: 'p' :: 'p' :: '.' :: 'c' :: 'o' :: 'p' ::
      'p' :: 'e' :: 'r' :: '.' :: 'c' :: 'o' :: 'm' :: '/' :: 'c' :: 'o' ::
      'm' :: 'p' :: 'a' :: 'n' :: 'i' :: 'e' :: 's' :: '/' ::
        (acctc ++ '/' :: 'a' :: 'p' :: 'p' :: '#' :: '/' :: u)) =
      searchLastToken u := by
  obtain ⟨a, as, rfl⟩ := List.exists_cons_of_ne_nil hne
  unfold matchRecordUrlAt
  rw [show stripPre ("/app".data) ('/' :: 'a' :: 'p' :: 'p' :: '.' :: 'c' ::
      'o' :: 'p' :: 'p' :: 'e' :: 'r' :: '.' :: 'c' :: 'o' :: 'm' :: '/' ::
      'c' :: 'o' :: 'm' :: 'p' :: 'a' :: 'n' :: 'i' :: 'e' :: 's' :: '/' ::
        ((a :: as) ++ '/' :: 'a' :: 'p' :: 'p' :: '#' :: '/' :: u)) =
      some ('.' :: 'c' :: 'o' :: 'p' :: 'p' :: 'e' :: 'r' :: '.' :: 'c' ::
        'o' :: 'm' :: '/' :: 'c' :: 'o' :: 'm' :: 'p' :: 'a' :: 'n' :: 'i' ::
        'e' :: 's' :: '/' ::
          ((a :: as) ++ '/' :: 'a' :: 'p' :: 'p' :: '#' :: '/' :: u))
      from rfl]
  dsimp only
  rw [show stripPre ("copper".data) ('c' :: 'o' :: 'p' :: 'p' :: 'e' :: 'r' ::
      '.' :: 'c' :: 'o' :: 'm' :: '/' :: 'c' :: 'o' :: 'm' :: 'p' :: 'a' ::
      'n' :: 'i' :: 'e' :: 's' :: '/' ::
        ((a :: as) ++ '/' :: 'a' :: 'p' :: 'p' :: '#' :: '/' :: u)) =
      some ('.' :: 'c' :: 'o' :: 'm' :: '/' :: 'c' :: 'o' :: 'm' :: 'p' ::
        'a' :: 'n' :: 'i' :: 'e' :: 's' :: '/' ::
          ((a :: as) ++ '/' :: 'a' :: 'p' :: 'p' :: '#' :: '/' :: u))
      from rfl]
  dsimp only
  rw [show stripPre ("com/companies/".data) ('c' :: 'o' :: 'm' :: '/' ::
      'c' :: 'o' :: 'm' :: 'p' :: 'a' :: 'n' :: 'i' :: 'e' :: 's' :: '/' ::
        ((a :: as) ++ '/' :: 'a' :: 'p' :: 'p' :: '#' :: '/' :: u)) =
      some ((a :: as) ++ '/' :: 'a' :: 'p' :: 'p' :: '#' :: '/' :: u)
      from rfl]
  dsimp only
  rw [takeWhile_append_all Char.isDigit (a :: as) _ hdig,
    dropWhile_append_all Char.isDigit (a :: as) _ hdig,
    show List.takeWhile Char.isDigit
      ('/' :: 'a' :: 'p' :: 'p' :: '#' :: '/' :: u) = [] from rfl,
    show List.dropWhile Char.isDigit
      ('/' :: 'a' :: 'p' :: 'p' :: '#' :: '/' :: u) =
      '/' :: 'a' :: 'p' :: 'p' :: '#' :: '/' :: u from rfl,
    List.append_nil]
  rw [show (List.isEmpty (a :: as)) = false from rfl,
    if_neg Bool.false_ne_true,
    show stripPre ("/app#/".data) ('/' :: 'a' :: 'p' :: 'p' :: '#' :: '/' ::
      u) = some u from rfl]

/-- Skipping a start position where the anchored pattern fails. -/
theorem exec_cons_of (c : Char) (rest : List Char)
    (res : Option (List Char × List Char))
    (h1 : matchRecordUrlAt (c :: rest) = none)
    (h2 : execRecordUrl rest = res) : execRecordUrl (c :: rest) = res := by
  rw [execRecordUrl, h1, h2]
  rfl

/-- C5: getIdFromUrlOrId round-trips with URL generation and classifies its
input. For every numeric account id and every id string of five or more
digits, resolving the URL produced by getCopperUrl for web token
deal/contact/organization returns that id with type
opportunity/person/company respectively; every bare input matching
`^[0-9]{5,}$` resolves to itself with null type; every input matching
neither pattern fails with the invalid-identifier error. -/
theorem C5_identifier_resolution_round_trip (acct id s t : String)
    (hacct1 : acct.data ≠ []) (hacct2 : acct.data.all Char.isDigit = true)
    (hid1 : 5 ≤ id.data.length) (hid2 : id.data.all Char.isDigit = true) :
    getIdFromUrlOrId (getCopperUrl acct "deal" id) =
      Except.ok ⟨id, some "opportunity"⟩ ∧
    getIdFromUrlOrId (getCopperUrl acct "contact" id) =
      Except.ok ⟨id, some "person"⟩ ∧
    getIdFromUrlOrId (getCopperUrl acct "organization" id) =
      Except.ok ⟨id, some "company"⟩ ∧
    (copperIdTest s = true → getIdFromUrlOrId s = Except.ok ⟨s, none⟩) ∧
    (copperIdTest t = false → execRecordUrl t.data = none →
      getIdFromUrlOrId t = Except.error "Invalid Copper ID or URL") := by
  refine ⟨?_, ?_, ?_, ?_, ?_⟩
  · have hexec : execRecordUrl (getCopperUrl acct "deal" id).data =
        some ("deal".data, id.data) := by
      rw [getCopperUrl_data]
      refine exec_cons_of 'h' _ _ rfl ?_
      refine exec_cons_of 't' _ _ rfl ?_
      refine exec_cons_of 't' _ _ rfl ?_
      refine exec_cons_of 'p' _ _ rfl ?_
      refine exec_cons_of 's' _ _ rfl ?_
      refine exec_cons_of ':' _ _ rfl ?_
      refine exec_cons_of '/' _ _ rfl ?_
      rw [execRecordUrl, matchRecordUrlAt_companies acct.data _ hacct1 hacct2,
        searchLastToken_deal id.data hid1 hid2]
      rfl
    have htest := copperIdTest_getCopperUrl acct "deal" id
    unfold getIdFromUrlOrId
    rw [htest, if_neg Bool.false_ne_true, hexec]
    dsimp only
    simp only [strMkData]
    rfl
  · have hexec : execRecordUrl (getCopperUrl acct "contact" id).data =
        some ("contact".data, id.data) := by
      rw [getCopperUrl_data]
      refine exec_cons_of 'h' _ _ rfl ?_
      refine exec_cons_of 't' _ _ rfl ?_
      refine exec_cons_of 't' _ _ rfl ?_
      refine exec_cons_of 'p' _ _ rfl ?_
      refine exec_cons_of 's' _ _ rfl ?_
      refine exec_cons_of ':' _ _ rfl ?_
      refine exec_cons_of '/' _ _ rfl ?_
      rw [execRecordUrl, matchRecordUrlAt_companies acct.data _ hacct1 hacct2,
        searchLastToken_contact id.data hid1 hid2]
      rfl
    have htest := copperIdTest_getCopperUrl acct "contact" id
    unfold getIdFromUrlOrId
    rw [htest, if_neg Bool.false_ne_true, hexec]
    dsimp only
    simp only [strMkData]
    rfl
  · have hexec : execRecordUrl (getCopperUrl acct "organization" id).data =
        some ("organization".data, id.data) := by
      rw [getCopperUrl_data]
      refine exec_cons_of 'h' _ _ rfl ?_
      refine exec_cons_of 't' _ _ rfl ?_
      refine exec_cons_of 't' _ _ rfl ?_
      refine exec_cons_of 'p' _ _ rfl ?_
      refine exec_cons_of 's' _ _ rfl ?_
      refine exec_cons_of ':' _ _ rfl ?_
      refine exec_cons_of '/' _ _ rfl ?_
      rw [execRecordUrl, matchRecordUrlAt_companies acct.data _ hacct1 hacct2,
        searchLastToken_organization id.data hid1 hid2]
      rfl
    have htest := copperIdTest_getCopperUrl acct "organization" id
    unfold getIdFromUrlOrId
    rw [htest, if_neg Bool.false_ne_true, hexec]
    dsimp only
    simp only [strMkData]
    rfl
  · intro hs
    unfold getIdFromUrlOrId
    rw [hs, if_pos rfl]
  · intro h1 h2
    unfold getIdFromUrlOrId
    rw [h1, if_neg Bool.false_ne_true, h2]

/-- C5 witness: account 999 with deal id 123456 resolves back to an
opportunity, the bare id resolves with null type, and the non-matching
input abc is rejected. -/
theorem C5_identifier_resolution_round_trip_witness :
    getIdFromUrlOrId (getCopperUrl "999" "deal" "123456") =
      Except.ok ⟨"123456", some "opportunity"⟩ ∧
    getIdFromUrlOrId "123456" = Except.ok ⟨"123456", none⟩ ∧
    getIdFromUrlOrId "abc" = Except.error "Invalid Copper ID or URL" := by
  have h := C5_identifier_resolution_round_trip "999" "123456" "123456" "abc"
    (by decide) (by decide) (by decide) (by decide)
  exact ⟨h.1, h.2.2.2.1 rfl, h.2.2.2.2 rfl rfl⟩

end CodaCopper
